import Mathlib

/-!
# walb-driver: control dispatcher and memory block pipeline

A shallow embedding of `module/control.c` and
`module/simple_blk_bio_mem_barrier.c`.

* Machine integers are `Nat` / `Int`; `unsigned int` arithmetic that can wrap
  is reduced modulo `2 ^ 32` where the source performs it.
* Calls to collaborators (locks, registry, device construction, platform
  registration) are recorded, in program order, in an event trace.
* `ASSERT` is a debug-only macro; asserted conditions are not checked by the
  embedding.
-/

namespace Walb

/-! ## Constants of the platform -/

/-- Linux `EIO`. -/
def EIO : Int := 5

/-- Linux `EFAULT`. -/
def EFAULT : Int := 14

/-- Linux `ENOTTY`. -/
def ENOTTY : Int := 25

/-- Linux `UINT_MAX`. -/
def UINT_MAX : Nat := 2 ^ 32 - 1

/-- Linux `MINORBITS` (kdev_t.h). -/
def MINORBITS : Nat := 20

/-- Linux `MKDEV(ma, mi)`: `((ma) << MINORBITS) | (mi)` on a 32 bit `dev_t`. -/
def MKDEV (ma mi : Nat) : Nat := ((ma <<< MINORBITS) ||| mi) % 2 ^ 32

/-- The size of `unsigned int`. -/
def sizeof_unsigned_int : Nat := 4

/-- Conversion of an `unsigned int` value to `int` (two's complement). -/
def to_int (n : Nat) : Int :=
  if n % 2 ^ 32 < 2 ^ 31 then ((n % 2 ^ 32 : Nat) : Int) else ((n % 2 ^ 32 : Nat) : Int) - 2 ^ 32

/-! ## Control envelope -/

/-- Modelled from the spec: the command codes of `walb/ioctl.h` (missing from
the sources), numbered as in section 6 of the specification. -/
def WALB_IOCTL_START_DEV : Nat := 1

/-- Modelled from the spec: command code of StopDevice. -/
def WALB_IOCTL_STOP_DEV : Nat := 2

/-- Modelled from the spec: command code of GetMajor. -/
def WALB_IOCTL_GET_MAJOR : Nat := 3

/-- Modelled from the spec: command code of ListDevices. -/
def WALB_IOCTL_LIST_DEV : Nat := 4

/-- Modelled from the spec: command code of NumOfDevices. -/
def WALB_IOCTL_NUM_OF_DEV : Nat := 5

/-- One direction of `struct walb_ctl` (`u2k` or `k2u`), with the fields the
handlers of `control.c` use. `kbuf` is the kernel buffer as a list of bytes,
`none` being the `NULL` pointer. -/
structure walb_ctl_data where
  wmajor : Nat
  wminor : Nat
  lmajor : Nat
  lminor : Nat
  dmajor : Nat
  dminor : Nat
  buf_size : Nat
  kbuf : Option (List Nat)
deriving DecidableEq, Repr

/-- The control envelope `struct walb_ctl`. -/
structure walb_ctl where
  command : Nat
  val_int : Int
  error : Int
  u2k : walb_ctl_data
  k2u : walb_ctl_data
deriving DecidableEq, Repr

/-- Little endian read of the `i`-th `unsigned int` of a buffer
(`((unsigned int *)kbuf)[i]`); bytes past the end read as zero. -/
def read_uint (buf : List Nat) (i : Nat) : Nat :=
  (buf.getD (4 * i) 0) % 256
    + 256 * ((buf.getD (4 * i + 1) 0) % 256)
    + 65536 * ((buf.getD (4 * i + 2) 0) % 256)
    + 16777216 * ((buf.getD (4 * i + 3) 0) % 256)

/-! ## Device records and the registry -/

/-- The part of `struct walb_dev` the registry looks at: the minor of the
device and the identities of its log and data devices; `param` is the start
parameter block the device was built from. -/
structure walb_dev where
  minor : Nat
  ldevt : Nat
  ddevt : Nat
  param : List Nat
deriving DecidableEq, Repr

/-- Modelled from the spec: `alldevs_is_already_used` of `alldevs.c` (missing
from the sources), the registry operation `is_identity_in_use`: true if any
record's data or log identity equals `devt`. -/
def alldevs_is_already_used (r : List walb_dev) (devt : Nat) : Bool :=
  r.any (fun w => w.ldevt == devt || w.ddevt == devt)

/-- Modelled from the spec: `search_wdev_with_minor` of `alldevs.c` (missing
from the sources), the registry operation `lookup`. -/
def search_wdev_with_minor (r : List walb_dev) (minor : Nat) : Option walb_dev :=
  r.find? (fun w => w.minor == minor)

/-- Insertion of a record at its place in increasing minor order. -/
def insert_by_minor (w : walb_dev) : List walb_dev → List walb_dev
  | [] => [w]
  | x :: xs => if w.minor ≤ x.minor then w :: x :: xs else x :: insert_by_minor w xs

/-- Modelled from the spec: `alldevs_add` of `alldevs.c` (missing from the
sources), the registry operation `insert`: fails (non-zero) if the record's
minor, data identity or log identity collides with an existing record, and
otherwise adds the record to the ordered mapping and returns 0. -/
def alldevs_add (r : List walb_dev) (w : walb_dev) : Int × List walb_dev :=
  if r.any (fun x => x.minor == w.minor)
      || alldevs_is_already_used r w.ldevt
      || alldevs_is_already_used r w.ddevt then
    (-1, r)
  else
    (0, insert_by_minor w r)

/-- Modelled from the spec: `alldevs_del` of `alldevs.c` (missing from the
sources), the registry operation `remove`: removes the record of the device's
minor if present. -/
def alldevs_del (r : List walb_dev) (w : walb_dev) : List walb_dev :=
  r.filter (fun x => x.minor != w.minor)

/-- First even minor, searching upwards from `m` for at most `fuel` steps,
that no record of the registry has. -/
def first_free_even (r : List walb_dev) : Nat → Nat → Nat
  | 0, m => m
  | fuel + 1, m => if r.any (fun x => x.minor == m) then first_free_even r fuel (m + 2) else m

/-- Modelled from the spec: `get_free_minor` of `alldevs.c` (missing from the
sources), the registry operation `allocate_free_minor`: the smallest even
minor not currently in use. -/
def get_free_minor (r : List walb_dev) : Nat :=
  first_free_even r r.length 0

/-- Modelled from the spec: `get_n_devices` of `alldevs.c` (missing from the
sources), the registry operation `count`. -/
def get_n_devices (r : List walb_dev) : Nat :=
  r.length

/-- The records of the registry with `minor0 <= minor < minor1`. -/
def wdevs_in_range (r : List walb_dev) (minor0 minor1 : Nat) : List walb_dev :=
  r.filter (fun w => decide (minor0 ≤ w.minor) && decide (w.minor < minor1))

/-- Overwrite the beginning of a buffer with `bytes`. -/
def write_bytes (buf bytes : List Nat) : List Nat :=
  bytes ++ buf.drop bytes.length

/-- Modelled from the spec: `get_wdev_list_range` of `alldevs.c` (missing from
the sources), the registry operation `list_range`: the records with
`minor0 <= minor < minor1`, truncated to `n` entries, are written as summary
records (`encode`) to the buffer `ddata` when it is not `NULL`; the value
returned is the total count of matches irrespective of truncation. -/
def get_wdev_list_range (encode : walb_dev → List Nat) (r : List walb_dev)
    (ddata : Option (List Nat)) (n minor0 minor1 : Nat) : Int × Option (List Nat) :=
  let found := wdevs_in_range r minor0 minor1
  (to_int found.length,
    ddata.map (fun buf => write_bytes buf ((found.take n).flatMap encode)))

/-! ## Collaborators of the control dispatcher -/

/-- What `control.c` takes from the rest of the module and from
`walb/ioctl.h`: the module major `walb_major_`, the sentinel
`WALB_DYNAMIC_MINOR`, the sizes of `struct walb_start_param` and
`struct walb_disk_data`, the validity check of start parameters, device
construction (`prepare_wdev` gives `NULL`, here `none`, on failure, and may
adjust the parameter block it is handed), platform registration, and the
layout of a summary record. -/
structure Env where
  walb_major_ : Nat
  WALB_DYNAMIC_MINOR : Nat
  sizeof_walb_start_param : Nat
  sizeof_walb_disk_data : Nat
  is_walb_start_param_valid : List Nat → Bool
  prepare_wdev : Nat → Nat → Nat → List Nat → Option walb_dev × List Nat
  register_wdev : walb_dev → Bool
  disk_data_of : walb_dev → List Nat

/-- The calls a handler makes to its collaborators. -/
inductive Ev where
  | alldevs_write_lock
  | alldevs_write_unlock
  | alldevs_read_lock
  | alldevs_read_unlock
  | alldevs_is_already_used (devt : Nat)
  | get_free_minor
  | prepare_wdev (wminor ldevt ddevt : Nat)
  | alldevs_add (w : walb_dev)
  | register_wdev (w : walb_dev)
  | unregister_wdev (w : walb_dev)
  | alldevs_del (w : walb_dev)
  | destroy_wdev (w : walb_dev)
  | search_wdev_with_minor (minor : Nat)
  | get_wdev_list_range (has_buf : Bool) (n minor0 minor1 : Nat)
  | get_n_devices
deriving DecidableEq, Repr

/-- The state the handlers act on: the registry and the trace of calls made so
far, oldest first. -/
structure Kern where
  alldevs : List walb_dev
  trace : List Ev
deriving DecidableEq, Repr

/-- Record a call. -/
def Kern.call (k : Kern) (e : Ev) : Kern :=
  { k with trace := k.trace ++ [e] }

/-! ## Handlers of `control.c` -/

/-- `ioctl_start_dev`: the value returned, the envelope and the state after
the call. -/
def ioctl_start_dev (env : Env) (ctl : walb_ctl) (k : Kern) : Int × walb_ctl × Kern :=
  let ldevt := MKDEV ctl.u2k.lmajor ctl.u2k.lminor
  let ddevt := MKDEV ctl.u2k.dmajor ctl.u2k.dminor
  if ctl.u2k.buf_size ≠ env.sizeof_walb_start_param then
    (-EFAULT, { ctl with error := -1 }, k)
  else if ctl.k2u.buf_size ≠ env.sizeof_walb_start_param then
    (-EFAULT, { ctl with error := -2 }, k)
  else
    let param0 := ctl.u2k.kbuf.getD []
    if !env.is_walb_start_param_valid param0 then
      (-EFAULT, { ctl with error := -3 }, k)
    else
      -- Lock
      let k := k.call .alldevs_write_lock
      let k := k.call (.alldevs_is_already_used ldevt)
      if alldevs_is_already_used k.alldevs ldevt then
        (-EFAULT, { ctl with error := -4 }, k.call .alldevs_write_unlock)
      else
        let k := k.call (.alldevs_is_already_used ddevt)
        if alldevs_is_already_used k.alldevs ddevt then
          (-EFAULT, { ctl with error := -5 }, k.call .alldevs_write_unlock)
        else
          let (wminor, k) :=
            if ctl.u2k.wminor = env.WALB_DYNAMIC_MINOR then
              (get_free_minor k.alldevs, k.call .get_free_minor)
            else
              (ctl.u2k.wminor - ctl.u2k.wminor % 2, k)
          let k := k.call (.prepare_wdev wminor ldevt ddevt)
          let (wdev?, param0) := env.prepare_wdev wminor ldevt ddevt param0
          let ctl := { ctl with u2k := { ctl.u2k with kbuf := ctl.u2k.kbuf.map (fun _ => param0) } }
          match wdev? with
          | none =>
            (-EFAULT, { ctl with error := -6 }, k.call .alldevs_write_unlock)
          | some wdev =>
            let k := k.call (.alldevs_add wdev)
            let (ret, r) := alldevs_add k.alldevs wdev
            let k := { k with alldevs := r }
            if ret ≠ 0 then
              let k := k.call .alldevs_write_unlock
              -- error1
              (-EFAULT, { ctl with error := -7 }, k.call (.destroy_wdev wdev))
            else
              let k := k.call (.register_wdev wdev)
              if !env.register_wdev wdev then
                -- error2
                let k := k.call (.alldevs_del wdev)
                let k := { k with alldevs := alldevs_del k.alldevs wdev }
                let k := k.call .alldevs_write_unlock
                -- error1
                (-EFAULT, { ctl with error := -8 }, k.call (.destroy_wdev wdev))
              else
                -- Unlock
                let k := k.call .alldevs_write_unlock
                -- Return values to userland.
                (0,
                  { ctl with
                    k2u := { ctl.k2u with
                      wmajor := env.walb_major_
                      wminor := wminor
                      kbuf := ctl.k2u.kbuf.map (fun _ => param0) }
                    error := 0 },
                  k)

/-- `ioctl_stop_dev`. -/
def ioctl_stop_dev (env : Env) (ctl : walb_ctl) (k : Kern) : Int × walb_ctl × Kern :=
  let wmajor := ctl.u2k.wmajor
  let wminor := ctl.u2k.wminor
  if wmajor ≠ env.walb_major_ then
    (-EFAULT, ctl, k)
  else
    let k := k.call .alldevs_read_lock
    let k := k.call (.search_wdev_with_minor wminor)
    let wdev? := search_wdev_with_minor k.alldevs wminor
    let k := k.call .alldevs_read_unlock
    match wdev? with
    | none => (-EFAULT, { ctl with error := -1 }, k)
    | some wdev =>
      let k := k.call (.unregister_wdev wdev)
      let k := k.call .alldevs_write_lock
      let k := k.call (.alldevs_del wdev)
      let k := { k with alldevs := alldevs_del k.alldevs wdev }
      let k := k.call .alldevs_write_unlock
      let k := k.call (.destroy_wdev wdev)
      -- Set result
      (0, { ctl with error := 0 }, k)

/-- `ioctl_get_major`. -/
def ioctl_get_major (env : Env) (ctl : walb_ctl) (k : Kern) : Int × walb_ctl × Kern :=
  (0, { ctl with k2u := { ctl.k2u with wmajor := env.walb_major_ }, error := 0 }, k)

/-- `ioctl_list_dev`. -/
def ioctl_list_dev (env : Env) (ctl : walb_ctl) (k : Kern) : Int × walb_ctl × Kern :=
  if ctl.u2k.buf_size < sizeof_unsigned_int * 2 then
    (-EFAULT, ctl, k)
  else
    let minor := ctl.u2k.kbuf.getD []
    if read_uint minor 0 ≥ read_uint minor 1 then
      (-EFAULT, ctl, k)
    else
      let ddata := ctl.k2u.kbuf
      let n :=
        if ddata.isSome then ctl.k2u.buf_size / env.sizeof_walb_disk_data else UINT_MAX
      let k := k.call (.get_wdev_list_range ddata.isSome n (read_uint minor 0) (read_uint minor 1))
      let (cnt, ddata) :=
        get_wdev_list_range env.disk_data_of k.alldevs ddata n (read_uint minor 0) (read_uint minor 1)
      (0, { ctl with val_int := cnt, k2u := { ctl.k2u with kbuf := ddata } }, k)

/-- `ioctl_num_of_dev`. -/
def ioctl_num_of_dev (_env : Env) (ctl : walb_ctl) (k : Kern) : Int × walb_ctl × Kern :=
  let k := k.call .get_n_devices
  (0, { ctl with val_int := to_int (get_n_devices k.alldevs) }, k)

/-- `dispatch_ioctl`. -/
def dispatch_ioctl (env : Env) (ctl : walb_ctl) (k : Kern) : Int × walb_ctl × Kern :=
  if ctl.command = WALB_IOCTL_START_DEV then ioctl_start_dev env ctl k
  else if ctl.command = WALB_IOCTL_STOP_DEV then ioctl_stop_dev env ctl k
  else if ctl.command = WALB_IOCTL_GET_MAJOR then ioctl_get_major env ctl k
  else if ctl.command = WALB_IOCTL_LIST_DEV then ioctl_list_dev env ctl k
  else if ctl.command = WALB_IOCTL_NUM_OF_DEV then ioctl_num_of_dev env ctl k
  else (-ENOTTY, ctl, k)

/-! ## Reading a trace -/

/-- The minor `ioctl_start_dev` builds the device with: the value of
`get_free_minor()` for the sentinel `WALB_DYNAMIC_MINOR`, else the requested
minor with its lowest bit cleared (`wminor &= ~1U`). -/
def start_dev_wminor (env : Env) (ctl : walb_ctl) (r : List walb_dev) : Nat :=
  if ctl.u2k.wminor = env.WALB_DYNAMIC_MINOR then get_free_minor r
  else ctl.u2k.wminor - ctl.u2k.wminor % 2

/-- The calls `ioctl_start_dev` makes to pick the minor. -/
def start_dev_minor_calls (env : Env) (ctl : walb_ctl) : List Ev :=
  if ctl.u2k.wminor = env.WALB_DYNAMIC_MINOR then [.get_free_minor] else []

/-- How the registry lock is held. -/
inductive LockState where
  | unlocked
  | read_locked
  | write_locked
deriving DecidableEq, Repr

/-- The effect of one call on the registry lock. -/
def lock_step (s : LockState) : Ev → LockState
  | .alldevs_write_lock => .write_locked
  | .alldevs_write_unlock => .unlocked
  | .alldevs_read_lock => .read_locked
  | .alldevs_read_unlock => .unlocked
  | _ => s

/-- The states of the registry lock in which the calls satisfying `p` are
made, in order, for a sequence of calls that starts with the lock in state
`s`. -/
def locks_when (p : Ev → Bool) : LockState → List Ev → List LockState
  | _, [] => []
  | s, c :: cs => (if p c then [s] else []) ++ locks_when p (lock_step s c) cs

/-- Is the call an `alldevs_del`? -/
def Ev.is_alldevs_del : Ev → Bool
  | .alldevs_del _ => true
  | _ => false

/-- Is the call an `unregister_wdev`? -/
def Ev.is_unregister_wdev : Ev → Bool
  | .unregister_wdev _ => true
  | _ => false

/-- Is the call a `destroy_wdev`? -/
def Ev.is_destroy_wdev : Ev → Bool
  | .destroy_wdev _ => true
  | _ => false

/-- The calls that construct a device, insert into or remove from the
registry, or register a device with the platform. -/
def Ev.builds_or_changes : Ev → Bool
  | .prepare_wdev _ _ _ => true
  | .alldevs_add _ => true
  | .alldevs_del _ => true
  | .register_wdev _ => true
  | _ => false

/-- The calls `ioctl_start_dev` makes, once validation and the in-use checks
have passed, up to and including the construction of the device. -/
def start_dev_calls_to_prepare (env : Env) (ctl : walb_ctl) (r : List walb_dev) : List Ev :=
  [Ev.alldevs_write_lock,
    Ev.alldevs_is_already_used (MKDEV ctl.u2k.lmajor ctl.u2k.lminor),
    Ev.alldevs_is_already_used (MKDEV ctl.u2k.dmajor ctl.u2k.dminor)]
  ++ start_dev_minor_calls env ctl
  ++ [Ev.prepare_wdev (start_dev_wminor env ctl r)
        (MKDEV ctl.u2k.lmajor ctl.u2k.lminor) (MKDEV ctl.u2k.dmajor ctl.u2k.dminor)]

/-- The registry lock under the locking discipline: a lock is acquired only
when none is held, and released only when that same lock is held. `none` when
a call breaks the discipline. -/
def lock_checked (s : LockState) : Ev → Option LockState
  | .alldevs_write_lock => if s = .unlocked then some .write_locked else none
  | .alldevs_write_unlock => if s = .write_locked then some .unlocked else none
  | .alldevs_read_lock => if s = .unlocked then some .read_locked else none
  | .alldevs_read_unlock => if s = .read_locked then some .unlocked else none
  | _ => some s

/-- The registry lock after a sequence of calls made under the locking
discipline, `none` when one of them breaks it. -/
def lock_run : LockState → List Ev → Option LockState
  | s, [] => some s
  | s, c :: cs =>
    match lock_checked s c with
    | none => none
    | some s2 => lock_run s2 cs

/-- Is the call an acquisition or a release of the registry lock? -/
def Ev.is_lock_call : Ev → Bool
  | .alldevs_write_lock => true
  | .alldevs_write_unlock => true
  | .alldevs_read_lock => true
  | .alldevs_read_unlock => true
  | _ => false

/-- Is the call a registry insert or removal? -/
def Ev.is_registry_change : Ev → Bool
  | .alldevs_add _ => true
  | .alldevs_del _ => true
  | _ => false

/-- Is the call a registry lookup, in-use check, count or range listing? -/
def Ev.is_registry_read : Ev → Bool
  | .search_wdev_with_minor _ => true
  | .alldevs_is_already_used _ => true
  | .get_n_devices => true
  | .get_wdev_list_range _ _ _ _ => true
  | _ => false

/-- Is the call a `get_free_minor`? -/
def Ev.is_get_free_minor : Ev → Bool
  | .get_free_minor => true
  | _ => false

/-- Is the call an `alldevs_add`? -/
def Ev.is_alldevs_add : Ev → Bool
  | .alldevs_add _ => true
  | _ => false

/-! ## Backing store (`memblk_data`) -/

/-- Request flag `REQ_WRITE` (bit numbers as in `linux/blk_types.h` of
Linux 3.2). -/
def REQ_WRITE : Nat := 2 ^ 0

/-- Request flag `REQ_DISCARD`. -/
def REQ_DISCARD : Nat := 2 ^ 7

/-- Request flag `REQ_SECURE`. -/
def REQ_SECURE : Nat := 2 ^ 8

/-- Request flag `REQ_FUA`. -/
def REQ_FUA : Nat := 2 ^ 10

/-- Request flag `REQ_FLUSH`. -/
def REQ_FLUSH : Nat := 2 ^ 11

/-- The in-memory block array `struct memblk_data`: `blocks[i]` holds the
bytes of logical block `i`; the capacity is the number of blocks. -/
structure memblk_data where
  block_size : Nat
  blocks : List (List Nat)
deriving DecidableEq, Repr

/-- Modelled from the spec: `mdata_get_block` of `memblk_data.c` (missing from
the sources): the bytes of logical block `block_id`. -/
def mdata_get_block (mdata : memblk_data) (block_id : Nat) : List Nat :=
  mdata.blocks.getD block_id []

/-- The `block_size` bytes of a buffer from offset `off` on; bytes the buffer
does not have read as zero. -/
def buffer_block (block_size : Nat) (buf : List Nat) (off : Nat) : List Nat :=
  ((buf.drop off) ++ List.replicate block_size 0).take block_size

/-- Modelled from the spec: `mdata_write_blocks` of `memblk_data.c` (missing
from the sources): copies `n_blocks` logical blocks from the caller's buffer
into the store, starting at block `block_id`. -/
def mdata_write_blocks (mdata : memblk_data) (block_id n_blocks : Nat) (buf : List Nat) :
    memblk_data :=
  (List.range n_blocks).foldl
    (fun m i =>
      { m with blocks := m.blocks.set (block_id + i) (buffer_block m.block_size buf (i * m.block_size)) })
    mdata

/-- Modelled from the spec: `mdata_read_blocks` of `memblk_data.c` (missing
from the sources): copies `n_blocks` logical blocks from the store, starting
at block `block_id`, into the caller's buffer. The buffer after the call is
returned; it keeps its length. -/
def mdata_read_blocks (mdata : memblk_data) (block_id n_blocks : Nat) (buf : List Nat) :
    List Nat :=
  (write_bytes buf
    ((List.range n_blocks).flatMap (fun i => mdata_get_block mdata (block_id + i)))).take buf.length

/-- `memset(block, 0, block_size)` on logical block `block_id`. -/
def mdata_zero_block (mdata : memblk_data) (block_id : Nat) : memblk_data :=
  { mdata with blocks := mdata.blocks.set block_id (List.replicate mdata.block_size 0) }

/-! ## Block operations -/

/-- The fields of `struct bio` the pipeline uses. `bi_io_vec` holds the
segments, each as the bytes of its buffer (`bv_len` is the length of the list,
`bi_vcnt` the number of segments). -/
structure bio where
  bi_sector : Nat
  bi_size : Nat
  bi_rw : Nat
  bi_idx : Nat
  bi_io_vec : List (List Nat)
deriving DecidableEq, Repr

/-- Linux `bio_cur_bytes(bio)` (`linux/bio.h`): `bio_iovec(bio)->bv_len`, the
length of the segment at `bio->bi_idx`, when the operation has segments, and
`bi_size` otherwise. -/
def bio_cur_bytes (b : bio) : Nat :=
  if b.bi_io_vec.length ≠ 0 then (b.bi_io_vec.getD b.bi_idx []).length else b.bi_size

/-- `mdata_exec_discard`. -/
def mdata_exec_discard (mdata : memblk_data) (block_id n_blocks : Nat) : memblk_data :=
  (List.range n_blocks).foldl (fun m i => mdata_zero_block m (block_id + i)) mdata

/-- The body of the `bio_for_each_segment` loop of `mdata_exec_bio` for
segment `i`, on the state (store, operation, `block_id`). -/
def mdata_exec_bio_segment (is_write : Bool) (st : memblk_data × bio × Nat) (i : Nat) :
    memblk_data × bio × Nat :=
  let (mdata, b, block_id) := st
  let buffer_bio := b.bi_io_vec.getD i []
  let n_blk := bio_cur_bytes b / mdata.block_size
  if is_write then
    (mdata_write_blocks mdata block_id n_blk buffer_bio, b, block_id + n_blk)
  else
    (mdata,
      { b with bi_io_vec := b.bi_io_vec.set i (mdata_read_blocks mdata block_id n_blk buffer_bio) },
      block_id + n_blk)

/-- `mdata_exec_bio`: the store and the operation (its buffers) after the
call. `bio_for_each_segment` runs over the segments `bi_idx .. bi_vcnt - 1`. -/
def mdata_exec_bio (mdata : memblk_data) (b : bio) : memblk_data × bio :=
  let block_id := b.bi_sector
  if b.bi_rw &&& REQ_DISCARD ≠ 0 then
    if b.bi_rw &&& REQ_SECURE ≠ 0 then
      (mdata_exec_discard mdata block_id (b.bi_size / mdata.block_size), b)
    else
      (mdata, b)
  else if b.bi_rw &&& REQ_FLUSH ≠ 0 ∧ b.bi_size = 0 then
    (mdata, b)
  else if b.bi_rw &&& REQ_FUA ≠ 0 ∧ b.bi_size = 0 then
    (mdata, b)
  else
    let is_write := decide (b.bi_rw &&& REQ_WRITE ≠ 0)
    let st := (List.range' b.bi_idx (b.bi_io_vec.length - b.bi_idx)).foldl
      (mdata_exec_bio_segment is_write) (mdata, b, block_id)
    (st.1, st.2.1)

/-! ## The two stage pipeline -/

/-- The function a work item runs (`work->func`, set by `INIT_WORK`). -/
inductive work_fn where
  | bio_worker
  | bio_io_worker
deriving DecidableEq, Repr

/-- The fields of `struct bio_work` the pipeline uses. -/
structure bio_work where
  bio : bio
  func : work_fn
deriving DecidableEq, Repr

/-- The calls the pipeline makes to the platform. -/
inductive PEv where
  | queue_work_misc (w : bio_work)
  | queue_work_io (w : bio_work)
  | flush_workqueue_io
  | mdata_exec_bio (b : bio)
  | add_timer (w : bio_work)
  | del_timer (w : bio_work)
  | bio_endio (b : bio) (error : Int)
  | destroy_bio_work (w : bio_work)
deriving DecidableEq, Repr

/-- The state of the pipeline of one device: the backing store, the work
queued on the ordering queue `wq_misc_` and on the execution queue `wq_io_`,
the armed completion timers, and the trace of calls made so far, oldest
first. -/
structure Pipeline where
  mdata : memblk_data
  wq_misc_ : List bio_work
  wq_io_ : List bio_work
  timers : List bio_work
  trace : List PEv
deriving DecidableEq, Repr

/-- Record a call. -/
def Pipeline.call (p : Pipeline) (e : PEv) : Pipeline :=
  { p with trace := p.trace ++ [e] }

/-- `create_bio_work`: `NULL` (`none`) if `kmem_cache_alloc` failed
(`alloc_ok = false`), else a work item initialised to run `bio_worker`. -/
def create_bio_work (alloc_ok : Bool) (b : bio) : Option bio_work :=
  if !alloc_ok then none
  else some { bio := b, func := .bio_worker }

/-- `bio_endio_timer_callback`. -/
def bio_endio_timer_callback (w : bio_work) (p : Pipeline) : Pipeline :=
  let p := p.call (.bio_endio w.bio 0)
  let p := { p.call (.del_timer w) with timers := p.timers.erase w }
  p.call (.destroy_bio_work w)

/-- `bio_io_worker`: executes the operation on the store and arms the
completion timer. -/
def bio_io_worker (w : bio_work) (p : Pipeline) : Pipeline :=
  let p := p.call (.mdata_exec_bio w.bio)
  let (mdata, b) := mdata_exec_bio p.mdata w.bio
  let w := { w with bio := b }
  { p.call (.add_timer w) with mdata := mdata, timers := p.timers ++ [w] }

/-- `flush_workqueue(wq_io_)`: returns when all work queued on the execution
queue has finished; the pending work items run, here in queue order. -/
def flush_workqueue_io (p : Pipeline) : Pipeline :=
  let p := p.call .flush_workqueue_io
  p.wq_io_.foldl (fun q w => bio_io_worker w q) { p with wq_io_ := [] }

/-- `bio_worker`, the serialized worker of the ordering queue. -/
def bio_worker (w : bio_work) (p : Pipeline) : Pipeline :=
  let b := w.bio
  let (p, isDone) :=
    if b.bi_rw &&& REQ_FLUSH ≠ 0 then
      let p := flush_workqueue_io p
      if b.bi_size = 0 then (p.call (.bio_endio b 0), true) else (p, false)
    else (p, false)
  if isDone then
    p.call (.destroy_bio_work w)
  else
    let w := { w with func := .bio_io_worker }
    { p.call (.queue_work_io w) with wq_io_ := p.wq_io_ ++ [w] }

/-- `simple_blk_bio_make_request`. After `queue_work` control reaches the
label `error0`, as it does after a failed allocation. -/
def simple_blk_bio_make_request (alloc_ok : Bool) (b : bio) (p : Pipeline) : Pipeline :=
  match create_bio_work alloc_ok b with
  | none =>
    -- error0
    p.call (.bio_endio b (- EIO))
  | some bio_work =>
    let p := { p.call (.queue_work_misc bio_work) with wq_misc_ := p.wq_misc_ ++ [bio_work] }
    -- error0
    p.call (.bio_endio b (- EIO))

/-! ## `formatString` of the log tool (`tool/wlog/util.hpp`) -/

/-- An argument of a `printf` style call: a C string (its bytes) or a
character. -/
inductive printf_arg where
  | str (s : List Nat)
  | chr (c : Nat)
deriving DecidableEq, Repr

/-- The bytes of a C string: those before the first NUL. -/
def c_str (s : List Nat) : List Nat :=
  s.takeWhile (fun c => c != 0)

/-- The bytes of a string literal. -/
def bytes_of (s : String) : List Nat :=
  s.toList.map Char.toNat

/-- The bytes `printf` style formatting produces for the directives `%s`,
`%c` and `%%` (byte 37 is `%`, 115 is `s`, 99 is `c`); `none` for any other
directive or a missing argument. -/
def printf_bytes : List Nat → List printf_arg → Option (List Nat)
  | [], _ => some []
  | c :: fmt, args =>
    if c = 37 then
      match fmt, args with
      | d :: fmt2, a :: args2 =>
        if d = 115 then
          match a with
          | .str s => (printf_bytes fmt2 args2).map (fun out => c_str s ++ out)
          | .chr _ => none
        else if d = 99 then
          match a with
          | .chr ch => (printf_bytes fmt2 args2).map (fun out => (ch % 256) :: out)
          | .str _ => none
        else if d = 37 then
          (printf_bytes fmt2 (a :: args2)).map (fun out => 37 :: out)
        else none
      | d :: fmt2, [] =>
        if d = 37 then (printf_bytes fmt2 []).map (fun out => 37 :: out) else none
      | [], _ => none
    else
      (printf_bytes fmt args).map (fun out => c :: out)

/-- The C library `vasprintf` on the directives above: the value returned and
the buffer `p` it allocates. On success the value is the number of bytes
produced and the buffer holds them followed by a NUL; on failure (also for a
`NULL` format) the value is -1. -/
def vasprintf (format : Option (List Nat)) (args : List printf_arg) : Int × List Nat :=
  match format with
  | none => (-1, [])
  | some fmt =>
    match printf_bytes (c_str fmt) args with
    | none => (-1, [])
    | some out => ((out.length : Int), out ++ [0])

/-- `formatString`, over the formatting function it calls: an exception
(`std::runtime_error` with its message) when the formatting reports failure,
else the string `std::string(p, ret)`, the first `ret` bytes of the
buffer. -/
def formatString (vasprintf : Option (List Nat) → List printf_arg → Int × List Nat)
    (format : Option (List Nat)) (args : List printf_arg) : Except String (List Nat) :=
  let (ret, p) := vasprintf format args
  if ret < 0 then
    Except.error "vasprintf failed."
  else
    Except.ok (p.take ret.toNat)

/-! ## `PerformanceStatistics` of the log tool (`tool/wlog/util.hpp`) -/

/-- The class `PerformanceStatistics`; response times are exact rationals and
the counter is unbounded. -/
structure PerformanceStatistics where
  total_ : ℚ
  max_ : ℚ
  min_ : ℚ
  count_ : Nat
deriving DecidableEq

/-- The default constructor `PerformanceStatistics()`. -/
def PerformanceStatistics.new : PerformanceStatistics :=
  { total_ := 0, max_ := -1, min_ := -1, count_ := 0 }

/-- `PerformanceStatistics::updateRt`. -/
def PerformanceStatistics.updateRt (s : PerformanceStatistics) (rt : ℚ) : PerformanceStatistics :=
  let s :=
    if s.max_ < 0 ∨ s.min_ < 0 then
      { s with max_ := rt, min_ := rt }
    else if s.max_ < rt then
      { s with max_ := rt }
    else if s.min_ > rt then
      { s with min_ := rt }
    else s
  { s with total_ := s.total_ + rt, count_ := s.count_ + 1 }

/-- The object built from the default constructor by calling `updateRt` with
the response times of a list, in order. -/
def stats_of (rts : List ℚ) : PerformanceStatistics :=
  rts.foldl PerformanceStatistics.updateRt PerformanceStatistics.new

/-- The body of the `for_each` of `mergeStats`, on the locals
(`total`, `max`, `min`, `count`). -/
def mergeStats_step (acc : ℚ × ℚ × ℚ × Nat) (stat : PerformanceStatistics) : ℚ × ℚ × ℚ × Nat :=
  let (total, mx, mn, count) := acc
  let total := total + stat.total_
  let mx := if mx < 0 ∨ mx < stat.max_ then stat.max_ else mx
  let mn := if mn < 0 ∨ mn > stat.min_ then stat.min_ else mn
  let count := count + stat.count_
  (total, mx, mn, count)

/-- `mergeStats` over the objects of a range. -/
def mergeStats (stats : List PerformanceStatistics) : PerformanceStatistics :=
  let acc := stats.foldl mergeStats_step (0, -1, -1, 0)
  { total_ := acc.1, max_ := acc.2.1, min_ := acc.2.2.1, count_ := acc.2.2.2 }

/-- A state of the statistics: fresh (both bounds at the sentinel -1) or
holding bounds `0 <= min <= max`. -/
def PerformanceStatistics.good (s : PerformanceStatistics) : Prop :=
  (s.max_ = -1 ∧ s.min_ = -1) ∨ (0 ≤ s.min_ ∧ s.min_ ≤ s.max_)

instance (s : PerformanceStatistics) : Decidable s.good := by
  unfold PerformanceStatistics.good
  infer_instance

/-- The locals of `mergeStats` holding the members of an object. -/
def PerformanceStatistics.locals (s : PerformanceStatistics) : ℚ × ℚ × ℚ × Nat :=
  (s.total_, s.max_, s.min_, s.count_)

/-! ## Concrete inputs -/

/-- A concrete environment: major 250, start parameter blocks of two bytes
(valid unless all zero), construction always succeeds, registration fails for
minor 6. -/
def sample_env : Env where
  walb_major_ := 250
  WALB_DYNAMIC_MINOR := 2 ^ 32 - 1
  sizeof_walb_start_param := 2
  sizeof_walb_disk_data := 1
  is_walb_start_param_valid := fun p => p != [0, 0]
  prepare_wdev := fun m l d p => (some ⟨m, l, d, p⟩, p)
  register_wdev := fun w => w.minor != 6
  disk_data_of := fun w => [w.minor]

/-- An envelope direction with all fields zero and no buffer. -/
def sample_data : walb_ctl_data := ⟨0, 0, 0, 0, 0, 0, 0, none⟩

/-- A StartDevice envelope for minor `wminor`, log device `8:lminor` and data
device `8:dminor`, with the caller's result code preset to 99. -/
def sample_start (wminor lminor dminor : Nat) : walb_ctl :=
  { command := WALB_IOCTL_START_DEV
    val_int := 0
    error := 99
    u2k := { sample_data with
      wminor := wminor, lmajor := 8, lminor := lminor, dmajor := 8, dminor := dminor
      buf_size := 2, kbuf := some [1, 1] }
    k2u := { sample_data with buf_size := 2, kbuf := some [0, 0] } }

/-- A registry with one device, minor 0 over log device `8:3` and data device
`8:4`, and an empty trace. -/
def sample_kern : Kern :=
  { alldevs := [⟨0, MKDEV 8 3, MKDEV 8 4, [1, 1]⟩], trace := [] }

/-- A registry with five devices, minors 0, 2, 4, 6 and 8, and an empty
trace. -/
def sample_kern5 : Kern :=
  { alldevs :=
      [⟨0, MKDEV 8 1, MKDEV 8 2, [1, 1]⟩, ⟨2, MKDEV 8 3, MKDEV 8 4, [1, 1]⟩,
        ⟨4, MKDEV 8 5, MKDEV 8 6, [1, 1]⟩, ⟨6, MKDEV 8 7, MKDEV 8 8, [1, 1]⟩,
        ⟨8, MKDEV 8 9, MKDEV 8 10, [1, 1]⟩]
    trace := [] }

/-- A ListDevices envelope for the range of minors `[0, 100)` with output
capacity zero. -/
def sample_list : walb_ctl :=
  { command := WALB_IOCTL_LIST_DEV
    val_int := 0
    error := 0
    u2k := { sample_data with buf_size := 8, kbuf := some [0, 0, 0, 0, 100, 0, 0, 0] }
    k2u := sample_data }

theorem filter_insert_by_minor (w : walb_dev) (r : List walb_dev)
    (h : ∀ x ∈ r, x.minor ≠ w.minor) :
    (insert_by_minor w r).filter (fun x => x.minor != w.minor) = r := by
  induction r with
  | nil => simp [insert_by_minor]
  | cons x xs ih =>
    have hx : x.minor ≠ w.minor := h x (List.mem_cons_self _ _)
    have hxs : ∀ y ∈ xs, y.minor ≠ w.minor := fun y hy => h y (List.mem_cons_of_mem _ hy)
    have hfil : xs.filter (fun y => y.minor != w.minor) = xs := by
      apply List.filter_eq_self.mpr
      intro y hy
      simpa using hxs y hy
    unfold insert_by_minor
    split
    · simp [hx, hfil]
    · simp [hx, ih hxs]

theorem alldevs_add_ok (r : List walb_dev) (w : walb_dev) (h : (alldevs_add r w).1 = 0) :
    (alldevs_add r w).2 = insert_by_minor w r ∧ ∀ x ∈ r, x.minor ≠ w.minor := by
  unfold alldevs_add at h ⊢
  split at h
  · simp at h
  · rename_i hc
    simp only [Bool.or_eq_true, not_or, Bool.not_eq_true] at hc
    refine ⟨by simp [hc], ?_⟩
    intro x hx
    have := hc.1.1
    rw [List.any_eq_false] at this
    simpa using this x hx

theorem alldevs_del_add (r : List walb_dev) (w : walb_dev) (h : (alldevs_add r w).1 = 0) :
    alldevs_del (alldevs_add r w).2 w = r := by
  obtain ⟨h1, h2⟩ := alldevs_add_ok r w h
  rw [h1]
  exact filter_insert_by_minor w r h2

/-! ## StartDevice -/

/-- C9: a StartDevice envelope whose input buffer size or output buffer size
differs from the size of the start parameter structure, or whose start
parameters are rejected by `is_walb_start_param_valid`, makes
`ioctl_start_dev` return `-EFAULT` with result code -1, -2 or -3 (the first
failing check decides) and leaves the registry and the trace of calls as they
were: no lock is taken, no lookup, insert or removal is made and no device is
constructed. -/
theorem ioctl_start_dev_malformed (env : Env) (ctl : walb_ctl) (k : Kern)
    (h : ctl.u2k.buf_size ≠ env.sizeof_walb_start_param
      ∨ ctl.k2u.buf_size ≠ env.sizeof_walb_start_param
      ∨ env.is_walb_start_param_valid (ctl.u2k.kbuf.getD []) = false) :
    ioctl_start_dev env ctl k =
      (-EFAULT,
        { ctl with error :=
            if ctl.u2k.buf_size ≠ env.sizeof_walb_start_param then -1
            else if ctl.k2u.buf_size ≠ env.sizeof_walb_start_param then -2
            else -3 },
        k) := by
  unfold ioctl_start_dev
  by_cases h1 : ctl.u2k.buf_size = env.sizeof_walb_start_param
  · by_cases h2 : ctl.k2u.buf_size = env.sizeof_walb_start_param
    · have h3 : env.is_walb_start_param_valid (ctl.u2k.kbuf.getD []) = false := by
        rcases h with h | h | h
        · exact absurd h1 h
        · exact absurd h2 h
        · exact h
      simp [h1, h2, h3]
    · simp [h1, h2]
  · simp [h1]

theorem ioctl_start_dev_malformed_witness :
    ioctl_start_dev sample_env { sample_start 4 1 2 with k2u := sample_data } sample_kern =
      (-EFAULT, { sample_start 4 1 2 with k2u := sample_data, error := -2 }, sample_kern) :=
  ioctl_start_dev_malformed sample_env { sample_start 4 1 2 with k2u := sample_data } sample_kern
    (Or.inr (Or.inl (by decide)))

/-- C3: a StartDevice request with valid buffer sizes and start parameters
whose log identity or data identity is already in use makes `ioctl_start_dev`
return `-EFAULT`, with result code -4 when the log identity is in use and
else -5; the calls it makes are the write lock, the in-use checks and the
write unlock, none of them constructs a device, inserts, removes or registers,
and the registry and its size are unchanged. -/
theorem ioctl_start_dev_in_use (env : Env) (ctl : walb_ctl) (k : Kern)
    (hu : ctl.u2k.buf_size = env.sizeof_walb_start_param)
    (hk : ctl.k2u.buf_size = env.sizeof_walb_start_param)
    (hv : env.is_walb_start_param_valid (ctl.u2k.kbuf.getD []) = true)
    (hused : alldevs_is_already_used k.alldevs (MKDEV ctl.u2k.lmajor ctl.u2k.lminor) = true
      ∨ alldevs_is_already_used k.alldevs (MKDEV ctl.u2k.dmajor ctl.u2k.dminor) = true) :
    ∃ calls : List Ev,
      ioctl_start_dev env ctl k =
        (-EFAULT,
          { ctl with error :=
              if alldevs_is_already_used k.alldevs (MKDEV ctl.u2k.lmajor ctl.u2k.lminor) then -4
              else -5 },
          { alldevs := k.alldevs, trace := k.trace ++ calls })
      ∧ calls =
          (if alldevs_is_already_used k.alldevs (MKDEV ctl.u2k.lmajor ctl.u2k.lminor) then
            [Ev.alldevs_write_lock,
              Ev.alldevs_is_already_used (MKDEV ctl.u2k.lmajor ctl.u2k.lminor),
              Ev.alldevs_write_unlock]
          else
            [Ev.alldevs_write_lock,
              Ev.alldevs_is_already_used (MKDEV ctl.u2k.lmajor ctl.u2k.lminor),
              Ev.alldevs_is_already_used (MKDEV ctl.u2k.dmajor ctl.u2k.dminor),
              Ev.alldevs_write_unlock])
      ∧ (∀ c ∈ calls, c.builds_or_changes = false)
      ∧ (ioctl_start_dev env ctl k).2.2.alldevs.length = k.alldevs.length := by
  unfold ioctl_start_dev
  by_cases hl : alldevs_is_already_used k.alldevs (MKDEV ctl.u2k.lmajor ctl.u2k.lminor) = true
  · refine ⟨_, ?_, rfl, ?_, ?_⟩
    · simp [hu, hk, hv, hl, Kern.call]
    · simp [hl, Ev.builds_or_changes]
    · simp [hu, hk, hv, hl, Kern.call]
  · have hd : alldevs_is_already_used k.alldevs (MKDEV ctl.u2k.dmajor ctl.u2k.dminor) = true :=
      hused.resolve_left hl
    refine ⟨_, ?_, rfl, ?_, ?_⟩
    · simp [hu, hk, hv, hl, hd, Kern.call]
    · simp [hl, Ev.builds_or_changes]
    · simp [hu, hk, hv, hl, hd, Kern.call]

theorem ioctl_start_dev_in_use_witness :
    (ioctl_start_dev sample_env (sample_start 2 1 4) sample_kern).1 = -EFAULT
      ∧ (ioctl_start_dev sample_env (sample_start 2 1 4) sample_kern).2.1.error = -5
      ∧ (ioctl_start_dev sample_env (sample_start 2 1 4) sample_kern).2.2.alldevs
          = sample_kern.alldevs := by
  obtain ⟨calls, h, -⟩ := ioctl_start_dev_in_use sample_env (sample_start 2 1 4) sample_kern
    (by decide) (by decide) (by decide) (Or.inr (by decide))
  rw [h]
  exact ⟨rfl, rfl, rfl⟩

/-- C2: a StartDevice request that passes validation and the in-use checks,
whose device is constructed and inserted (`alldevs_add` returns 0) but whose
platform registration fails, makes `ioctl_start_dev` call `alldevs_del` for
the device while the write lock is still held, then release the lock and call
`destroy_wdev`, set the result code to -8 and return `-EFAULT`; the registry
after the call is the registry before the call. -/
theorem ioctl_start_dev_register_failed (env : Env) (ctl : walb_ctl) (k : Kern)
    (wdev : walb_dev) (param : List Nat)
    (hu : ctl.u2k.buf_size = env.sizeof_walb_start_param)
    (hk : ctl.k2u.buf_size = env.sizeof_walb_start_param)
    (hv : env.is_walb_start_param_valid (ctl.u2k.kbuf.getD []) = true)
    (hl : alldevs_is_already_used k.alldevs (MKDEV ctl.u2k.lmajor ctl.u2k.lminor) = false)
    (hd : alldevs_is_already_used k.alldevs (MKDEV ctl.u2k.dmajor ctl.u2k.dminor) = false)
    (hp : env.prepare_wdev (start_dev_wminor env ctl k.alldevs)
        (MKDEV ctl.u2k.lmajor ctl.u2k.lminor) (MKDEV ctl.u2k.dmajor ctl.u2k.dminor)
        (ctl.u2k.kbuf.getD []) = (some wdev, param))
    (ha : (alldevs_add k.alldevs wdev).1 = 0)
    (hr : env.register_wdev wdev = false) :
    ∃ calls : List Ev,
      (ioctl_start_dev env ctl k).1 = -EFAULT
      ∧ (ioctl_start_dev env ctl k).2.1.error = -8
      ∧ (ioctl_start_dev env ctl k).2.2 = { alldevs := k.alldevs, trace := k.trace ++ calls }
      ∧ calls =
          [Ev.alldevs_write_lock,
            Ev.alldevs_is_already_used (MKDEV ctl.u2k.lmajor ctl.u2k.lminor),
            Ev.alldevs_is_already_used (MKDEV ctl.u2k.dmajor ctl.u2k.dminor)]
          ++ start_dev_minor_calls env ctl
          ++ [Ev.prepare_wdev (start_dev_wminor env ctl k.alldevs)
                (MKDEV ctl.u2k.lmajor ctl.u2k.lminor) (MKDEV ctl.u2k.dmajor ctl.u2k.dminor),
              Ev.alldevs_add wdev,
              Ev.register_wdev wdev,
              Ev.alldevs_del wdev,
              Ev.alldevs_write_unlock,
              Ev.destroy_wdev wdev]
      ∧ locks_when Ev.is_alldevs_del LockState.unlocked calls = [LockState.write_locked]
      ∧ locks_when Ev.is_destroy_wdev LockState.unlocked calls = [LockState.unlocked] := by
  have hdel := alldevs_del_add k.alldevs wdev ha
  have hret : ioctl_start_dev env ctl k =
      (-EFAULT,
        { ctl with
          u2k := { ctl.u2k with kbuf := ctl.u2k.kbuf.map (fun _ => param) }
          error := -8 },
        { alldevs := k.alldevs,
          trace := k.trace ++
            ([Ev.alldevs_write_lock,
              Ev.alldevs_is_already_used (MKDEV ctl.u2k.lmajor ctl.u2k.lminor),
              Ev.alldevs_is_already_used (MKDEV ctl.u2k.dmajor ctl.u2k.dminor)]
            ++ start_dev_minor_calls env ctl
            ++ [Ev.prepare_wdev (start_dev_wminor env ctl k.alldevs)
                  (MKDEV ctl.u2k.lmajor ctl.u2k.lminor) (MKDEV ctl.u2k.dmajor ctl.u2k.dminor),
                Ev.alldevs_add wdev,
                Ev.register_wdev wdev,
                Ev.alldevs_del wdev,
                Ev.alldevs_write_unlock,
                Ev.destroy_wdev wdev]) }) := by
    unfold ioctl_start_dev
    by_cases hdyn : ctl.u2k.wminor = env.WALB_DYNAMIC_MINOR
    · simp only [start_dev_wminor, hdyn, if_true] at hp
      simp [hu, hk, hv, hl, hd, hdyn, hp, ha, hr, Kern.call, hdel, start_dev_minor_calls,
        start_dev_wminor]
    · simp only [start_dev_wminor, hdyn, if_false] at hp
      simp [hu, hk, hv, hl, hd, hdyn, hp, ha, hr, Kern.call, hdel, start_dev_minor_calls,
        start_dev_wminor]
  refine ⟨_, by rw [hret], by rw [hret], by rw [hret], rfl, ?_, ?_⟩
  · by_cases hdyn : ctl.u2k.wminor = env.WALB_DYNAMIC_MINOR
    · simp [start_dev_minor_calls, hdyn, locks_when, lock_step, Ev.is_alldevs_del]
    · simp [start_dev_minor_calls, hdyn, locks_when, lock_step, Ev.is_alldevs_del]
  · by_cases hdyn : ctl.u2k.wminor = env.WALB_DYNAMIC_MINOR
    · simp [start_dev_minor_calls, hdyn, locks_when, lock_step, Ev.is_destroy_wdev]
    · simp [start_dev_minor_calls, hdyn, locks_when, lock_step, Ev.is_destroy_wdev]

theorem ioctl_start_dev_register_failed_witness :
    (ioctl_start_dev sample_env (sample_start 7 1 2) sample_kern).1 = -EFAULT
      ∧ (ioctl_start_dev sample_env (sample_start 7 1 2) sample_kern).2.1.error = -8
      ∧ (ioctl_start_dev sample_env (sample_start 7 1 2) sample_kern).2.2.alldevs
          = sample_kern.alldevs := by
  obtain ⟨calls, h1, h2, h3, -⟩ := ioctl_start_dev_register_failed sample_env
    (sample_start 7 1 2) sample_kern ⟨6, MKDEV 8 1, MKDEV 8 2, [1, 1]⟩ [1, 1]
    (by decide) (by decide) (by decide) (by decide) (by decide) (by decide) (by decide)
    (by decide)
  exact ⟨h1, h2, by rw [h3]⟩

/-! ## StopDevice -/

/-- C4: a StopDevice request whose major is the module major and whose minor
is found in the registry makes `ioctl_stop_dev` call, in this order,
read-lock, lookup, read-unlock, `unregister_wdev`, write-lock, `alldevs_del`,
write-unlock, `destroy_wdev`: the unregistration is made with no registry
lock held, the removal under the write lock after it, the destruction with no
lock held after the removal; the result code is set to 0 and 0 is
returned. -/
theorem ioctl_stop_dev_sequence (env : Env) (ctl : walb_ctl) (k : Kern) (wdev : walb_dev)
    (hmajor : ctl.u2k.wmajor = env.walb_major_)
    (hfound : search_wdev_with_minor k.alldevs ctl.u2k.wminor = some wdev) :
    ∃ calls : List Ev,
      ioctl_stop_dev env ctl k =
        (0, { ctl with error := 0 },
          { alldevs := alldevs_del k.alldevs wdev, trace := k.trace ++ calls })
      ∧ calls =
          [Ev.alldevs_read_lock,
            Ev.search_wdev_with_minor ctl.u2k.wminor,
            Ev.alldevs_read_unlock,
            Ev.unregister_wdev wdev,
            Ev.alldevs_write_lock,
            Ev.alldevs_del wdev,
            Ev.alldevs_write_unlock,
            Ev.destroy_wdev wdev]
      ∧ locks_when Ev.is_unregister_wdev LockState.unlocked calls = [LockState.unlocked]
      ∧ locks_when Ev.is_alldevs_del LockState.unlocked calls = [LockState.write_locked]
      ∧ locks_when Ev.is_destroy_wdev LockState.unlocked calls = [LockState.unlocked] := by
  refine ⟨_, ?_, rfl, ?_, ?_, ?_⟩
  · unfold ioctl_stop_dev
    simp [hmajor, hfound, Kern.call]
  · simp [locks_when, lock_step, Ev.is_unregister_wdev]
  · simp [locks_when, lock_step, Ev.is_alldevs_del]
  · simp [locks_when, lock_step, Ev.is_destroy_wdev]

theorem ioctl_stop_dev_sequence_witness :
    (ioctl_stop_dev sample_env
        { sample_start 0 0 0 with
          command := WALB_IOCTL_STOP_DEV
          u2k := { sample_data with wmajor := 250, wminor := 0 } }
        sample_kern).1 = 0
      ∧ (ioctl_stop_dev sample_env
          { sample_start 0 0 0 with
            command := WALB_IOCTL_STOP_DEV
            u2k := { sample_data with wmajor := 250, wminor := 0 } }
          sample_kern).2.2.alldevs = [] := by
  obtain ⟨calls, h, -⟩ := ioctl_stop_dev_sequence sample_env
    { sample_start 0 0 0 with
      command := WALB_IOCTL_STOP_DEV
      u2k := { sample_data with wmajor := 250, wminor := 0 } }
    sample_kern ⟨0, MKDEV 8 3, MKDEV 8 4, [1, 1]⟩ (by decide) (by decide)
  rw [h]
  exact ⟨rfl, rfl⟩

/-! ## ListDevices -/

/-- C10: a ListDevices envelope whose input buffer is smaller than two
unsigned integers, or whose range has `minor[0] >= minor[1]`, makes
`ioctl_list_dev` return `-EFAULT` and leaves the envelope (its auxiliary
result and its output buffer) and the state (the registry and the trace of
calls, so no range listing is called) as they were. -/
theorem ioctl_list_dev_invalid (env : Env) (ctl : walb_ctl) (k : Kern)
    (h : ctl.u2k.buf_size < sizeof_unsigned_int * 2
      ∨ read_uint (ctl.u2k.kbuf.getD []) 0 ≥ read_uint (ctl.u2k.kbuf.getD []) 1) :
    ioctl_list_dev env ctl k = (-EFAULT, ctl, k) := by
  unfold ioctl_list_dev
  by_cases h1 : ctl.u2k.buf_size < sizeof_unsigned_int * 2
  · simp [h1]
  · have h2 := h.resolve_left h1
    simp [h1, h2]

theorem ioctl_list_dev_invalid_witness :
    ioctl_list_dev sample_env
        { sample_start 0 0 0 with
          command := WALB_IOCTL_LIST_DEV
          u2k := { sample_data with buf_size := 8, kbuf := some [5, 0, 0, 0, 5, 0, 0, 0] } }
        sample_kern
      = (-EFAULT,
          { sample_start 0 0 0 with
            command := WALB_IOCTL_LIST_DEV
            u2k := { sample_data with buf_size := 8, kbuf := some [5, 0, 0, 0, 5, 0, 0, 0] } },
          sample_kern) :=
  ioctl_list_dev_invalid sample_env
    { sample_start 0 0 0 with
      command := WALB_IOCTL_LIST_DEV
      u2k := { sample_data with buf_size := 8, kbuf := some [5, 0, 0, 0, 5, 0, 0, 0] } }
    sample_kern (Or.inr (by decide))

/-! ## Result codes -/

theorem ioctl_start_dev_code (env : Env) (ctl : walb_ctl) (k : Kern) :
    ((ioctl_start_dev env ctl k).1 = 0 ∧ (ioctl_start_dev env ctl k).2.1.error = 0)
      ∨ ((ioctl_start_dev env ctl k).1 = -EFAULT ∧ (ioctl_start_dev env ctl k).2.1.error < 0) := by
  unfold ioctl_start_dev
  by_cases h1 : ctl.u2k.buf_size = env.sizeof_walb_start_param
  swap
  · simp [h1]
  by_cases h2 : ctl.k2u.buf_size = env.sizeof_walb_start_param
  swap
  · simp [h1, h2]
  cases hv : env.is_walb_start_param_valid (ctl.u2k.kbuf.getD [])
  · simp [h1, h2, hv]
  cases hl : alldevs_is_already_used k.alldevs (MKDEV ctl.u2k.lmajor ctl.u2k.lminor)
  swap
  · simp [h1, h2, hv, hl, Kern.call]
  cases hd : alldevs_is_already_used k.alldevs (MKDEV ctl.u2k.dmajor ctl.u2k.dminor)
  swap
  · simp [h1, h2, hv, hl, hd, Kern.call]
  by_cases hdyn : ctl.u2k.wminor = env.WALB_DYNAMIC_MINOR
  · rcases hp : env.prepare_wdev (get_free_minor k.alldevs) (MKDEV ctl.u2k.lmajor ctl.u2k.lminor)
      (MKDEV ctl.u2k.dmajor ctl.u2k.dminor) (ctl.u2k.kbuf.getD []) with ⟨_ | wdev, p⟩
    · simp [h1, h2, hv, hl, hd, hdyn, hp, Kern.call]
    · rcases ha : alldevs_add k.alldevs wdev with ⟨ret, r⟩
      by_cases hret : ret = 0
      · cases hr : env.register_wdev wdev <;>
          simp [h1, h2, hv, hl, hd, hdyn, hp, ha, hret, hr, Kern.call]
      · simp [h1, h2, hv, hl, hd, hdyn, hp, ha, hret, Kern.call]
  · rcases hp : env.prepare_wdev (ctl.u2k.wminor - ctl.u2k.wminor % 2)
      (MKDEV ctl.u2k.lmajor ctl.u2k.lminor)
      (MKDEV ctl.u2k.dmajor ctl.u2k.dminor) (ctl.u2k.kbuf.getD []) with ⟨_ | wdev, p⟩
    · simp [h1, h2, hv, hl, hd, hdyn, hp, Kern.call]
    · rcases ha : alldevs_add k.alldevs wdev with ⟨ret, r⟩
      by_cases hret : ret = 0
      · cases hr : env.register_wdev wdev <;>
          simp [h1, h2, hv, hl, hd, hdyn, hp, ha, hret, hr, Kern.call]
      · simp [h1, h2, hv, hl, hd, hdyn, hp, ha, hret, Kern.call]

theorem ioctl_stop_dev_code (env : Env) (ctl : walb_ctl) (k : Kern)
    (hmajor : ctl.u2k.wmajor = env.walb_major_) :
    ((ioctl_stop_dev env ctl k).1 = 0 ∧ (ioctl_stop_dev env ctl k).2.1.error = 0)
      ∨ ((ioctl_stop_dev env ctl k).1 = -EFAULT ∧ (ioctl_stop_dev env ctl k).2.1.error < 0) := by
  unfold ioctl_stop_dev
  rcases hs : search_wdev_with_minor k.alldevs ctl.u2k.wminor with _ | wdev
  · simp [hmajor, hs, Kern.call]
  · simp [hmajor, hs, Kern.call]

/-- C5 (as stated) fails: a NumOfDevices envelope whose result code the
caller preset to 99 succeeds (the handler returns 0) with result code 99, and
a ListDevices envelope with an empty range fails (the handler returns
`-EFAULT`) with result code 99, which is not negative. -/
theorem dispatch_ioctl_error_preset_kept :
    ((dispatch_ioctl sample_env { sample_start 0 0 0 with command := WALB_IOCTL_NUM_OF_DEV }
        sample_kern).1 = 0
      ∧ (dispatch_ioctl sample_env { sample_start 0 0 0 with command := WALB_IOCTL_NUM_OF_DEV }
        sample_kern).2.1.error ≠ 0)
    ∧ ((dispatch_ioctl sample_env
          { sample_start 0 0 0 with
            command := WALB_IOCTL_LIST_DEV
            u2k := { sample_data with buf_size := 8, kbuf := some [5, 0, 0, 0, 5, 0, 0, 0] } }
          sample_kern).1 ≠ 0
      ∧ ¬ (dispatch_ioctl sample_env
          { sample_start 0 0 0 with
            command := WALB_IOCTL_LIST_DEV
            u2k := { sample_data with buf_size := 8, kbuf := some [5, 0, 0, 0, 5, 0, 0, 0] } }
          sample_kern).2.1.error < 0) := by
  decide

/-- C5 (amended): for every StartDevice or GetMajor envelope, and every
StopDevice envelope whose major is the module major, whatever result code the
caller preset and whatever the registry, the result code after
`dispatch_ioctl` is 0 when the handler returned 0 and negative when it
returned non-zero; for every ListDevices or NumOfDevices envelope the result
code after `dispatch_ioctl` is the one the caller preset. -/
theorem dispatch_ioctl_error_code (env : Env) (ctl : walb_ctl) (k : Kern) :
    ((ctl.command = WALB_IOCTL_START_DEV ∨ ctl.command = WALB_IOCTL_GET_MAJOR
        ∨ (ctl.command = WALB_IOCTL_STOP_DEV ∧ ctl.u2k.wmajor = env.walb_major_)) →
      ((dispatch_ioctl env ctl k).1 = 0 → (dispatch_ioctl env ctl k).2.1.error = 0)
      ∧ ((dispatch_ioctl env ctl k).1 ≠ 0 → (dispatch_ioctl env ctl k).2.1.error < 0))
    ∧ ((ctl.command = WALB_IOCTL_LIST_DEV ∨ ctl.command = WALB_IOCTL_NUM_OF_DEV) →
      (dispatch_ioctl env ctl k).2.1.error = ctl.error) := by
  have hE : (-EFAULT : Int) ≠ 0 := by decide
  constructor
  · rintro (hc | hc | ⟨hc, hmajor⟩)
    · have hdisp : dispatch_ioctl env ctl k = ioctl_start_dev env ctl k := by
        simp [dispatch_ioctl, hc]
      rw [hdisp]
      rcases ioctl_start_dev_code env ctl k with ⟨h0, he⟩ | ⟨h0, he⟩
      · exact ⟨fun _ => he, fun h => absurd h0 h⟩
      · exact ⟨fun h => absurd (h0.symm.trans h) hE, fun _ => he⟩
    · have hdisp : dispatch_ioctl env ctl k = ioctl_get_major env ctl k := by
        simp [dispatch_ioctl, hc, WALB_IOCTL_GET_MAJOR, WALB_IOCTL_START_DEV,
          WALB_IOCTL_STOP_DEV]
      rw [hdisp]
      simp [ioctl_get_major]
    · have hdisp : dispatch_ioctl env ctl k = ioctl_stop_dev env ctl k := by
        simp [dispatch_ioctl, hc, WALB_IOCTL_START_DEV, WALB_IOCTL_STOP_DEV]
      rw [hdisp]
      rcases ioctl_stop_dev_code env ctl k hmajor with ⟨h0, he⟩ | ⟨h0, he⟩
      · exact ⟨fun _ => he, fun h => absurd h0 h⟩
      · exact ⟨fun h => absurd (h0.symm.trans h) hE, fun _ => he⟩
  · rintro (hc | hc)
    · have hdisp : dispatch_ioctl env ctl k = ioctl_list_dev env ctl k := by
        simp [dispatch_ioctl, hc, WALB_IOCTL_GET_MAJOR, WALB_IOCTL_START_DEV,
          WALB_IOCTL_STOP_DEV, WALB_IOCTL_LIST_DEV]
      rw [hdisp]
      unfold ioctl_list_dev
      dsimp only
      split
      · rfl
      · split <;> rfl
    · have hdisp : dispatch_ioctl env ctl k = ioctl_num_of_dev env ctl k := by
        simp [dispatch_ioctl, hc, WALB_IOCTL_GET_MAJOR, WALB_IOCTL_START_DEV,
          WALB_IOCTL_STOP_DEV, WALB_IOCTL_LIST_DEV, WALB_IOCTL_NUM_OF_DEV]
      rw [hdisp]
      rfl

theorem dispatch_ioctl_error_code_witness :
    ((dispatch_ioctl sample_env (sample_start 7 1 2) sample_kern).1 ≠ 0
      ∧ (dispatch_ioctl sample_env (sample_start 7 1 2) sample_kern).2.1.error < 0)
    ∧ ((dispatch_ioctl sample_env (sample_start 4 1 2) sample_kern).1 = 0
      ∧ (dispatch_ioctl sample_env (sample_start 4 1 2) sample_kern).2.1.error = 0)
    ∧ (dispatch_ioctl sample_env { sample_start 0 0 0 with command := WALB_IOCTL_NUM_OF_DEV }
        sample_kern).2.1.error = 99 :=
  ⟨⟨by decide,
      ((dispatch_ioctl_error_code sample_env (sample_start 7 1 2) sample_kern).1
        (Or.inl rfl)).2 (by decide)⟩,
    ⟨by decide,
      ((dispatch_ioctl_error_code sample_env (sample_start 4 1 2) sample_kern).1
        (Or.inl rfl)).1 (by decide)⟩,
    (dispatch_ioctl_error_code sample_env
      { sample_start 0 0 0 with command := WALB_IOCTL_NUM_OF_DEV } sample_kern).2
      (Or.inr rfl)⟩

/-! ## Submission path -/

/-- C1 (the code departs from it): when the allocation of the work item
succeeds, `simple_blk_bio_make_request` queues the work item once on the
ordering queue and then, control falling through to the label `error0`,
signals the completion of the operation with `-EIO`, as it does when the
allocation fails. -/
theorem simple_blk_bio_make_request_alloc_ok (b : bio) (p : Pipeline) :
    simple_blk_bio_make_request true b p =
        { p with
          wq_misc_ := p.wq_misc_ ++ [{ bio := b, func := work_fn.bio_worker }]
          trace := p.trace ++
            [PEv.queue_work_misc { bio := b, func := work_fn.bio_worker },
              PEv.bio_endio b (- EIO)] }
      ∧ simple_blk_bio_make_request false b p =
        { p with trace := p.trace ++ [PEv.bio_endio b (- EIO)] } := by
  constructor
  · simp [simple_blk_bio_make_request, create_bio_work, Pipeline.call]
  · simp [simple_blk_bio_make_request, create_bio_work, Pipeline.call]

/-! ## Ordering worker -/

theorem bio_io_worker_queues (w : bio_work) (q : Pipeline) :
    (bio_io_worker w q).wq_io_ = q.wq_io_
      ∧ (bio_io_worker w q).wq_misc_ = q.wq_misc_
      ∧ ∃ w2 : bio_work,
          (bio_io_worker w q).trace = q.trace ++ [PEv.mdata_exec_bio w.bio, PEv.add_timer w2] := by
  refine ⟨rfl, rfl, ⟨{ w with bio := (mdata_exec_bio q.mdata w.bio).2 }, ?_⟩⟩
  simp [bio_io_worker, Pipeline.call]

theorem foldl_bio_io_worker (ws : List bio_work) :
    ∀ q : Pipeline,
      (ws.foldl (fun q w => bio_io_worker w q) q).wq_io_ = q.wq_io_
      ∧ (ws.foldl (fun q w => bio_io_worker w q) q).wq_misc_ = q.wq_misc_
      ∧ ∃ calls : List PEv,
          (ws.foldl (fun q w => bio_io_worker w q) q).trace = q.trace ++ calls
          ∧ ∀ c ∈ calls,
              (∃ w ∈ ws, c = PEv.mdata_exec_bio w.bio) ∨ (∃ w2 : bio_work, c = PEv.add_timer w2) := by
  induction ws with
  | nil =>
    intro q
    exact ⟨rfl, rfl, [], by simp, by simp⟩
  | cons w ws ih =>
    intro q
    obtain ⟨h1, h2, calls, h3, h4⟩ := ih (bio_io_worker w q)
    obtain ⟨g1, g2, w2, g3⟩ := bio_io_worker_queues w q
    refine ⟨?_, ?_, [PEv.mdata_exec_bio w.bio, PEv.add_timer w2] ++ calls, ?_, ?_⟩
    · simpa [List.foldl_cons, g1] using h1
    · simpa [List.foldl_cons, g2] using h2
    · simp only [List.foldl_cons]
      rw [h3, g3]
      simp
    · intro c hc
      simp only [List.cons_append, List.nil_append, List.mem_cons] at hc
      rcases hc with hc | hc | hc
      · exact Or.inl ⟨w, List.mem_cons_self _ _, hc⟩
      · exact Or.inr ⟨w2, hc⟩
      · rcases h4 c hc with ⟨w3, hw3, e⟩ | h
        · exact Or.inl ⟨w3, List.mem_cons_of_mem _ hw3, e⟩
        · exact Or.inr h

/-- C8: for a work item whose operation carries the Flush flag and has zero
length, `bio_worker` first drains the execution queue (the calls of the drain
execute only operations that were queued on it before, and arm their timers),
then signals the completion of the operation with 0, once, and destroys the
work item; it queues nothing on the execution queue, which is empty
afterwards, and the backing store is the one the drain alone leaves. -/
theorem bio_worker_zero_length_flush (w : bio_work) (p : Pipeline)
    (hflush : w.bio.bi_rw &&& REQ_FLUSH ≠ 0) (hzero : w.bio.bi_size = 0) :
    bio_worker w p =
        ((flush_workqueue_io p).call (PEv.bio_endio w.bio 0)).call (PEv.destroy_bio_work w)
      ∧ (bio_worker w p).wq_io_ = []
      ∧ (bio_worker w p).wq_misc_ = p.wq_misc_
      ∧ (bio_worker w p).mdata = (flush_workqueue_io p).mdata
      ∧ ∃ drained : List PEv,
          (bio_worker w p).trace =
            p.trace ++ [PEv.flush_workqueue_io] ++ drained
              ++ [PEv.bio_endio w.bio 0, PEv.destroy_bio_work w]
          ∧ ∀ c ∈ drained,
              (∃ w1 ∈ p.wq_io_, c = PEv.mdata_exec_bio w1.bio)
                ∨ (∃ w2 : bio_work, c = PEv.add_timer w2) := by
  have hw : bio_worker w p =
      ((flush_workqueue_io p).call (PEv.bio_endio w.bio 0)).call (PEv.destroy_bio_work w) := by
    simp [bio_worker, hflush, hzero]
  obtain ⟨h1, h2, calls, h3, h4⟩ :=
    foldl_bio_io_worker p.wq_io_ { p.call PEv.flush_workqueue_io with wq_io_ := [] }
  refine ⟨hw, ?_, ?_, ?_, calls, ?_, h4⟩
  · rw [hw]
    simpa [Pipeline.call, flush_workqueue_io] using h1
  · rw [hw]
    simpa [Pipeline.call, flush_workqueue_io] using h2
  · rw [hw]
    rfl
  · rw [hw]
    simp only [Pipeline.call, flush_workqueue_io] at h3 ⊢
    rw [h3]
    simp

theorem bio_worker_zero_length_flush_witness :
    (bio_worker ⟨⟨0, 0, REQ_FLUSH, 0, []⟩, work_fn.bio_worker⟩
        ⟨⟨1, [[0]]⟩, [], [⟨⟨0, 1, REQ_WRITE, 0, [[7]]⟩, work_fn.bio_io_worker⟩], [], []⟩).wq_io_ = []
      ∧ (bio_worker ⟨⟨0, 0, REQ_FLUSH, 0, []⟩, work_fn.bio_worker⟩
        ⟨⟨1, [[0]]⟩, [], [⟨⟨0, 1, REQ_WRITE, 0, [[7]]⟩, work_fn.bio_io_worker⟩], [], []⟩).mdata
          = ⟨1, [[7]]⟩ := by
  obtain ⟨-, h1, -, h2, -⟩ := bio_worker_zero_length_flush
    ⟨⟨0, 0, REQ_FLUSH, 0, []⟩, work_fn.bio_worker⟩
    ⟨⟨1, [[0]]⟩, [], [⟨⟨0, 1, REQ_WRITE, 0, [[7]]⟩, work_fn.bio_io_worker⟩], [], []⟩
    (by decide) (by decide)
  exact ⟨h1, by rw [h2]; decide⟩

/-! ## Execution on the backing store -/

theorem mdata_zero_block_get (m : memblk_data) (j i : Nat) :
    mdata_get_block (mdata_zero_block m j) i =
      if i = j ∧ i < m.blocks.length then List.replicate m.block_size 0
      else mdata_get_block m i := by
  unfold mdata_get_block mdata_zero_block
  simp only [List.getD_eq_getElem?_getD, List.getElem?_set]
  by_cases hij : j = i
  · subst hij
    by_cases hlt : j < m.blocks.length
    · simp [hlt]
    · simp [hlt, List.getElem?_eq_none (Nat.le_of_not_lt hlt)]
  · have : ¬ i = j := fun h => hij h.symm
    simp [hij, this]

theorem mdata_exec_discard_succ (m : memblk_data) (k n : Nat) :
    mdata_exec_discard m k (n + 1) = mdata_zero_block (mdata_exec_discard m k n) (k + n) := by
  simp [mdata_exec_discard, List.range_succ, List.foldl_append]

theorem mdata_exec_discard_spec (m : memblk_data) (k n : Nat) :
    (mdata_exec_discard m k n).block_size = m.block_size
      ∧ (mdata_exec_discard m k n).blocks.length = m.blocks.length
      ∧ ∀ i, mdata_get_block (mdata_exec_discard m k n) i =
          if k ≤ i ∧ i < k + n ∧ i < m.blocks.length then List.replicate m.block_size 0
          else mdata_get_block m i := by
  induction n with
  | zero =>
    refine ⟨rfl, rfl, fun i => ?_⟩
    have : ¬ (k ≤ i ∧ i < k + 0 ∧ i < m.blocks.length) := by omega
    simp only [mdata_exec_discard, List.range_zero, List.foldl_nil]
    rw [if_neg this]
  | succ n ih =>
    obtain ⟨h1, h2, h3⟩ := ih
    rw [mdata_exec_discard_succ]
    refine ⟨by simpa [mdata_zero_block] using h1, by simpa [mdata_zero_block] using h2, fun i => ?_⟩
    rw [mdata_zero_block_get, h3 i, h1, h2]
    by_cases hi : i = k + n
    · subst hi
      by_cases hlt : k + n < m.blocks.length
      · have : k ≤ k + n ∧ k + n < k + (n + 1) ∧ k + n < m.blocks.length := by omega
        simp [hlt, this]
      · have a : ¬ (k ≤ k + n ∧ k + n < k + (n + 1) ∧ k + n < m.blocks.length) := by omega
        have b : ¬ (k ≤ k + n ∧ k + n < k + n ∧ k + n < m.blocks.length) := by omega
        simp [hlt, a, b]
    · by_cases hr : k ≤ i ∧ i < k + n ∧ i < m.blocks.length
      · have : k ≤ i ∧ i < k + (n + 1) ∧ i < m.blocks.length := by omega
        simp [hi, hr, this]
      · have : ¬ (k ≤ i ∧ i < k + (n + 1) ∧ i < m.blocks.length) := by omega
        simp [hi, hr, this]

/-- C7: for a Discard operation on blocks `[k, k + n)`, `k = bi_sector` and
`n = bi_size / block_size`: without the secure flag `mdata_exec_bio` leaves
the store and the operation as they were, whatever other flags are set; with
the secure flag the operation is unchanged, the store keeps its block size and
capacity, every block of the store in `[k, k + n)` is `block_size` zero bytes
and every block outside `[k, k + n)` is unchanged; in both cases the store
after the call does not depend on the payload buffers of the operation. -/
theorem mdata_exec_bio_discard (mdata : memblk_data) (b : bio)
    (hdis : b.bi_rw &&& REQ_DISCARD ≠ 0) :
    (b.bi_rw &&& REQ_SECURE = 0 → mdata_exec_bio mdata b = (mdata, b))
    ∧ (b.bi_rw &&& REQ_SECURE ≠ 0 →
        (mdata_exec_bio mdata b).2 = b
        ∧ (mdata_exec_bio mdata b).1.block_size = mdata.block_size
        ∧ (mdata_exec_bio mdata b).1.blocks.length = mdata.blocks.length
        ∧ (∀ i, b.bi_sector ≤ i → i < b.bi_sector + b.bi_size / mdata.block_size →
            i < mdata.blocks.length →
            mdata_get_block (mdata_exec_bio mdata b).1 i = List.replicate mdata.block_size 0)
        ∧ (∀ i, ¬ (b.bi_sector ≤ i ∧ i < b.bi_sector + b.bi_size / mdata.block_size) →
            mdata_get_block (mdata_exec_bio mdata b).1 i = mdata_get_block mdata i))
    ∧ (∀ segs : List (List Nat),
        (mdata_exec_bio mdata { b with bi_io_vec := segs }).1 = (mdata_exec_bio mdata b).1) := by
  refine ⟨?_, ?_, ?_⟩
  · intro hs
    simp [mdata_exec_bio, hdis, hs]
  · intro hs
    have hres : mdata_exec_bio mdata b =
        (mdata_exec_discard mdata b.bi_sector (b.bi_size / mdata.block_size), b) := by
      simp [mdata_exec_bio, hdis, hs]
    obtain ⟨h1, h2, h3⟩ := mdata_exec_discard_spec mdata b.bi_sector (b.bi_size / mdata.block_size)
    rw [hres]
    refine ⟨rfl, h1, h2, ?_, ?_⟩
    · intro i ha hb hc
      have := h3 i
      simp only [ha, hb, hc, and_self, if_true] at this
      exact this
    · intro i hn
      have := h3 i
      have hn2 : ¬ (b.bi_sector ≤ i ∧ i < b.bi_sector + b.bi_size / mdata.block_size
          ∧ i < mdata.blocks.length) := fun h => hn ⟨h.1, h.2.1⟩
      simp only [hn2, if_false] at this
      exact this
  · intro segs
    by_cases hs : b.bi_rw &&& REQ_SECURE = 0
    · simp [mdata_exec_bio, hdis, hs]
    · simp [mdata_exec_bio, hdis, hs]

theorem mdata_exec_bio_discard_witness :
    mdata_get_block
        (mdata_exec_bio ⟨2, [[0, 0], [5, 6], [7, 8], [9, 9]]⟩
          ⟨1, 4, REQ_DISCARD ||| REQ_SECURE, 0, []⟩).1 2 = [0, 0]
      ∧ mdata_get_block
        (mdata_exec_bio ⟨2, [[0, 0], [5, 6], [7, 8], [9, 9]]⟩
          ⟨1, 4, REQ_DISCARD ||| REQ_SECURE, 0, []⟩).1 3 = [9, 9] := by
  obtain ⟨-, h, -⟩ := mdata_exec_bio_discard ⟨2, [[0, 0], [5, 6], [7, 8], [9, 9]]⟩
    ⟨1, 4, REQ_DISCARD ||| REQ_SECURE, 0, []⟩ (by decide)
  obtain ⟨-, -, -, hin, hout⟩ := h (by decide)
  exact ⟨hin 2 (by decide) (by decide) (by decide), hout 3 (by decide)⟩

/-- C6 (the code departs from it): a Write of three blocks at block `k` whose
payload is split into a first segment of one block and a second segment of
two blocks stores the first segment in block `k` and the first block of the
second segment in block `k + 1`, and nothing else: `mdata_exec_bio` takes the
length of every segment from `bio_cur_bytes(bio)`, the length of the segment
at `bi_idx`, so the last block of the payload is never written and block
`k + 2` keeps its content. -/
theorem mdata_exec_bio_write_uneven (mdata : memblk_data) (k rw : Nat) (s0 s1 : List Nat)
    (hbs : 0 < mdata.block_size)
    (h0 : s0.length = mdata.block_size) (h1 : s1.length = 2 * mdata.block_size)
    (hw : rw &&& REQ_WRITE ≠ 0) (hnd : rw &&& REQ_DISCARD = 0) :
    (mdata_exec_bio mdata ⟨k, 3 * mdata.block_size, rw, 0, [s0, s1]⟩).1 =
      { mdata with
        blocks := (mdata.blocks.set k s0).set (k + 1) (s1.take mdata.block_size) } := by
  have hsz : 3 * mdata.block_size ≠ 0 := by omega
  have hdiv : s0.length / mdata.block_size = 1 := by rw [h0]; exact Nat.div_self hbs
  have hb0 : buffer_block mdata.block_size s0 0 = s0 := by
    simp [buffer_block, ← h0]
  have hb1 : buffer_block mdata.block_size s1 0 = s1.take mdata.block_size := by
    simp [buffer_block, List.take_append_of_le_length, h1]
    right
    omega
  simp [mdata_exec_bio, hnd, hsz, hw, mdata_exec_bio_segment, bio_cur_bytes, List.range',
    hdiv, mdata_write_blocks, List.range_succ, hb0, hb1]

theorem mdata_exec_bio_write_uneven_witness :
    (mdata_exec_bio ⟨2, [[0, 0], [0, 0], [0, 0]]⟩
        ⟨0, 6, REQ_WRITE, 0, [[1, 2], [3, 4, 5, 6]]⟩).1
      = ⟨2, [[1, 2], [3, 4], [0, 0]]⟩ :=
  mdata_exec_bio_write_uneven ⟨2, [[0, 0], [0, 0], [0, 0]]⟩ 0 REQ_WRITE [1, 2] [3, 4, 5, 6]
    (by decide) (by decide) (by decide) (by decide) (by decide)

/-! ## The paths of `ioctl_start_dev` -/

theorem ioctl_start_dev_cases (env : Env) (ctl : walb_ctl) (k : Kern) :
    (
      (ctl.u2k.buf_size ≠ env.sizeof_walb_start_param
        ∨ ctl.k2u.buf_size ≠ env.sizeof_walb_start_param
        ∨ env.is_walb_start_param_valid (ctl.u2k.kbuf.getD []) = false)
      ∧ ∃ code : Int, code < 0 ∧
        ioctl_start_dev env ctl k = (-EFAULT, { ctl with error := code }, k))
    ∨ (
      alldevs_is_already_used k.alldevs (MKDEV ctl.u2k.lmajor ctl.u2k.lminor) = true
      ∧ ioctl_start_dev env ctl k =
        (-EFAULT, { ctl with error := -4 },
          { alldevs := k.alldevs,
            trace := k.trace ++
              [Ev.alldevs_write_lock,
                Ev.alldevs_is_already_used (MKDEV ctl.u2k.lmajor ctl.u2k.lminor),
                Ev.alldevs_write_unlock] }))
    ∨ (
      alldevs_is_already_used k.alldevs (MKDEV ctl.u2k.dmajor ctl.u2k.dminor) = true
      ∧ ioctl_start_dev env ctl k =
        (-EFAULT, { ctl with error := -5 },
          { alldevs := k.alldevs,
            trace := k.trace ++
              [Ev.alldevs_write_lock,
                Ev.alldevs_is_already_used (MKDEV ctl.u2k.lmajor ctl.u2k.lminor),
                Ev.alldevs_is_already_used (MKDEV ctl.u2k.dmajor ctl.u2k.dminor),
                Ev.alldevs_write_unlock] }))
    ∨ (∃ param : List Nat,
      env.prepare_wdev (start_dev_wminor env ctl k.alldevs)
          (MKDEV ctl.u2k.lmajor ctl.u2k.lminor) (MKDEV ctl.u2k.dmajor ctl.u2k.dminor)
          (ctl.u2k.kbuf.getD []) = (none, param)
      ∧ ioctl_start_dev env ctl k =
        (-EFAULT,
          { ctl with
            u2k := { ctl.u2k with kbuf := ctl.u2k.kbuf.map (fun _ => param) }
            error := -6 },
          { alldevs := k.alldevs,
            trace := k.trace ++
              (start_dev_calls_to_prepare env ctl k.alldevs ++ [Ev.alldevs_write_unlock]) }))
    ∨ (∃ (wdev : walb_dev) (param : List Nat),
      env.prepare_wdev (start_dev_wminor env ctl k.alldevs)
          (MKDEV ctl.u2k.lmajor ctl.u2k.lminor) (MKDEV ctl.u2k.dmajor ctl.u2k.dminor)
          (ctl.u2k.kbuf.getD []) = (some wdev, param)
      ∧ (alldevs_add k.alldevs wdev).1 ≠ 0
      ∧ ioctl_start_dev env ctl k =
        (-EFAULT,
          { ctl with
            u2k := { ctl.u2k with kbuf := ctl.u2k.kbuf.map (fun _ => param) }
            error := -7 },
          { alldevs := (alldevs_add k.alldevs wdev).2,
            trace := k.trace ++
              (start_dev_calls_to_prepare env ctl k.alldevs
                ++ [Ev.alldevs_add wdev, Ev.alldevs_write_unlock, Ev.destroy_wdev wdev]) }))
    ∨ (∃ (wdev : walb_dev) (param : List Nat),
      env.prepare_wdev (start_dev_wminor env ctl k.alldevs)
          (MKDEV ctl.u2k.lmajor ctl.u2k.lminor) (MKDEV ctl.u2k.dmajor ctl.u2k.dminor)
          (ctl.u2k.kbuf.getD []) = (some wdev, param)
      ∧ (alldevs_add k.alldevs wdev).1 = 0
      ∧ env.register_wdev wdev = false
      ∧ ioctl_start_dev env ctl k =
        (-EFAULT,
          { ctl with
            u2k := { ctl.u2k with kbuf := ctl.u2k.kbuf.map (fun _ => param) }
            error := -8 },
          { alldevs := alldevs_del (alldevs_add k.alldevs wdev).2 wdev,
            trace := k.trace ++
              (start_dev_calls_to_prepare env ctl k.alldevs
                ++ [Ev.alldevs_add wdev, Ev.register_wdev wdev, Ev.alldevs_del wdev,
                  Ev.alldevs_write_unlock, Ev.destroy_wdev wdev]) }))
    ∨ (∃ (wdev : walb_dev) (param : List Nat),
      env.prepare_wdev (start_dev_wminor env ctl k.alldevs)
          (MKDEV ctl.u2k.lmajor ctl.u2k.lminor) (MKDEV ctl.u2k.dmajor ctl.u2k.dminor)
          (ctl.u2k.kbuf.getD []) = (some wdev, param)
      ∧ (alldevs_add k.alldevs wdev).1 = 0
      ∧ env.register_wdev wdev = true
      ∧ ioctl_start_dev env ctl k =
        (0,
          { ctl with
            u2k := { ctl.u2k with kbuf := ctl.u2k.kbuf.map (fun _ => param) }
            k2u := { ctl.k2u with
              wmajor := env.walb_major_
              wminor := start_dev_wminor env ctl k.alldevs
              kbuf := ctl.k2u.kbuf.map (fun _ => param) }
            error := 0 },
          { alldevs := (alldevs_add k.alldevs wdev).2,
            trace := k.trace ++
              (start_dev_calls_to_prepare env ctl k.alldevs
                ++ [Ev.alldevs_add wdev, Ev.register_wdev wdev, Ev.alldevs_write_unlock]) })) := by
  unfold ioctl_start_dev
  by_cases h1 : ctl.u2k.buf_size = env.sizeof_walb_start_param
  swap
  · exact Or.inl ⟨Or.inl h1, -1, by decide, by simp [h1]⟩
  by_cases h2 : ctl.k2u.buf_size = env.sizeof_walb_start_param
  swap
  · exact Or.inl ⟨Or.inr (Or.inl h2), -2, by decide, by simp [h1, h2]⟩
  cases hv : env.is_walb_start_param_valid (ctl.u2k.kbuf.getD [])
  · exact Or.inl ⟨Or.inr (Or.inr rfl), -3, by decide, by simp [h1, h2, hv]⟩
  cases hl : alldevs_is_already_used k.alldevs (MKDEV ctl.u2k.lmajor ctl.u2k.lminor)
  swap
  · exact Or.inr (Or.inl ⟨rfl, by simp [h1, h2, hv, hl, Kern.call]⟩)
  cases hd : alldevs_is_already_used k.alldevs (MKDEV ctl.u2k.dmajor ctl.u2k.dminor)
  swap
  · exact Or.inr (Or.inr (Or.inl ⟨rfl, by simp [h1, h2, hv, hl, hd, Kern.call]⟩))
  right; right; right
  by_cases hdyn : ctl.u2k.wminor = env.WALB_DYNAMIC_MINOR
  · have hm : start_dev_wminor env ctl k.alldevs = get_free_minor k.alldevs := by
      simp [start_dev_wminor, hdyn]
    rw [hm]
    rcases hp : env.prepare_wdev (get_free_minor k.alldevs) (MKDEV ctl.u2k.lmajor ctl.u2k.lminor)
      (MKDEV ctl.u2k.dmajor ctl.u2k.dminor) (ctl.u2k.kbuf.getD []) with ⟨_ | wdev, p⟩
    · exact Or.inl ⟨p, rfl, by
        simp [h1, h2, hv, hl, hd, hdyn, hp, Kern.call, start_dev_calls_to_prepare,
          start_dev_minor_calls, start_dev_wminor]⟩
    · rcases ha : alldevs_add k.alldevs wdev with ⟨ret, r⟩
      by_cases hret : ret = 0
      · cases hr : env.register_wdev wdev
        · exact Or.inr (Or.inr (Or.inl ⟨wdev, p, rfl, (by rw [ha]; exact hret), hr, by
            simp [h1, h2, hv, hl, hd, hdyn, hp, ha, hret, hr, Kern.call,
              start_dev_calls_to_prepare, start_dev_minor_calls, start_dev_wminor]⟩))
        · exact Or.inr (Or.inr (Or.inr ⟨wdev, p, rfl, (by rw [ha]; exact hret), hr, by
            simp [h1, h2, hv, hl, hd, hdyn, hp, ha, hret, hr, Kern.call,
              start_dev_calls_to_prepare, start_dev_minor_calls, start_dev_wminor]⟩))
      · exact Or.inr (Or.inl ⟨wdev, p, rfl, (by rw [ha]; exact hret), by
          simp [h1, h2, hv, hl, hd, hdyn, hp, ha, hret, Kern.call,
            start_dev_calls_to_prepare, start_dev_minor_calls, start_dev_wminor]⟩)
  · have hm : start_dev_wminor env ctl k.alldevs = ctl.u2k.wminor - ctl.u2k.wminor % 2 := by
      simp [start_dev_wminor, hdyn]
    rw [hm]
    rcases hp : env.prepare_wdev (ctl.u2k.wminor - ctl.u2k.wminor % 2)
      (MKDEV ctl.u2k.lmajor ctl.u2k.lminor)
      (MKDEV ctl.u2k.dmajor ctl.u2k.dminor) (ctl.u2k.kbuf.getD []) with ⟨_ | wdev, p⟩
    · exact Or.inl ⟨p, rfl, by
        simp [h1, h2, hv, hl, hd, hdyn, hp, Kern.call, start_dev_calls_to_prepare,
          start_dev_minor_calls, start_dev_wminor]⟩
    · rcases ha : alldevs_add k.alldevs wdev with ⟨ret, r⟩
      by_cases hret : ret = 0
      · cases hr : env.register_wdev wdev
        · exact Or.inr (Or.inr (Or.inl ⟨wdev, p, rfl, (by rw [ha]; exact hret), hr, by
            simp [h1, h2, hv, hl, hd, hdyn, hp, ha, hret, hr, Kern.call,
              start_dev_calls_to_prepare, start_dev_minor_calls, start_dev_wminor]⟩))
        · exact Or.inr (Or.inr (Or.inr ⟨wdev, p, rfl, (by rw [ha]; exact hret), hr, by
            simp [h1, h2, hv, hl, hd, hdyn, hp, ha, hret, hr, Kern.call,
              start_dev_calls_to_prepare, start_dev_minor_calls, start_dev_wminor]⟩))
      · exact Or.inr (Or.inl ⟨wdev, p, rfl, (by rw [ha]; exact hret), by
          simp [h1, h2, hv, hl, hd, hdyn, hp, ha, hret, Kern.call,
            start_dev_calls_to_prepare, start_dev_minor_calls, start_dev_wminor]⟩)

theorem lock_run_to_prepare (env : Env) (ctl : walb_ctl) (r : List walb_dev) (rest : List Ev) :
    lock_run LockState.unlocked (start_dev_calls_to_prepare env ctl r ++ rest)
      = lock_run LockState.write_locked rest := by
  by_cases hdyn : ctl.u2k.wminor = env.WALB_DYNAMIC_MINOR
  · simp [start_dev_calls_to_prepare, start_dev_minor_calls, hdyn, lock_run, lock_checked]
  · simp [start_dev_calls_to_prepare, start_dev_minor_calls, hdyn, lock_run, lock_checked]

theorem mem_to_prepare (env : Env) (ctl : walb_ctl) (r : List walb_dev) (c : Ev)
    (hc : c ∈ start_dev_calls_to_prepare env ctl r) :
    c.is_registry_change = false ∧ (∀ w, c ≠ Ev.register_wdev w) ∧ (∀ w, c ≠ Ev.destroy_wdev w) := by
  by_cases hdyn : ctl.u2k.wminor = env.WALB_DYNAMIC_MINOR
  · simp only [start_dev_calls_to_prepare, start_dev_minor_calls, hdyn, if_true,
      List.cons_append, List.nil_append, List.mem_cons, List.mem_singleton,
      List.not_mem_nil, or_false] at hc
    rcases hc with h | h | h | h | h <;> subst h <;> simp [Ev.is_registry_change]
  · simp only [start_dev_calls_to_prepare, start_dev_minor_calls, hdyn, if_false,
      List.cons_append, List.nil_append, List.append_nil, List.mem_cons, List.mem_singleton,
      List.not_mem_nil, or_false] at hc
    rcases hc with h | h | h | h <;> subst h <;> simp [Ev.is_registry_change]

/-- C12: a StopDevice request whose major is the module major and whose minor
has no record in the registry makes `ioctl_stop_dev` return `-EFAULT` with
result code -1; the calls it makes are the read lock, the lookup and the read
unlock, so there is no unregistration, no removal and no destruction, and the
registry is unchanged. -/
theorem ioctl_stop_dev_not_found (env : Env) (ctl : walb_ctl) (k : Kern)
    (hmajor : ctl.u2k.wmajor = env.walb_major_)
    (hnone : search_wdev_with_minor k.alldevs ctl.u2k.wminor = none) :
    ioctl_stop_dev env ctl k =
      (-EFAULT, { ctl with error := -1 },
        { alldevs := k.alldevs,
          trace := k.trace ++
            [Ev.alldevs_read_lock,
              Ev.search_wdev_with_minor ctl.u2k.wminor,
              Ev.alldevs_read_unlock] }) := by
  unfold ioctl_stop_dev
  simp [hmajor, hnone, Kern.call]

theorem ioctl_stop_dev_not_found_witness :
    (ioctl_stop_dev sample_env
        { sample_start 0 0 0 with
          command := WALB_IOCTL_STOP_DEV
          u2k := { sample_data with wmajor := 250, wminor := 2 } }
        sample_kern).1 = -EFAULT
      ∧ (ioctl_stop_dev sample_env
        { sample_start 0 0 0 with
          command := WALB_IOCTL_STOP_DEV
          u2k := { sample_data with wmajor := 250, wminor := 2 } }
        sample_kern).2.2.alldevs = sample_kern.alldevs := by
  have h := ioctl_stop_dev_not_found sample_env
    { sample_start 0 0 0 with
      command := WALB_IOCTL_STOP_DEV
      u2k := { sample_data with wmajor := 250, wminor := 2 } }
    sample_kern (by decide) (by decide)
  rw [h]
  exact ⟨rfl, rfl⟩

theorem to_prepare_no_add (env : Env) (ctl : walb_ctl) (r : List walb_dev) (w : walb_dev) :
    Ev.alldevs_add w ∉ start_dev_calls_to_prepare env ctl r
      ∧ Ev.alldevs_del w ∉ start_dev_calls_to_prepare env ctl r
      ∧ Ev.register_wdev w ∉ start_dev_calls_to_prepare env ctl r
      ∧ Ev.destroy_wdev w ∉ start_dev_calls_to_prepare env ctl r := by
  refine ⟨fun h => ?_, fun h => ?_, fun h => ?_, fun h => ?_⟩
  · simpa [Ev.is_registry_change] using (mem_to_prepare env ctl r _ h).1
  · simpa [Ev.is_registry_change] using (mem_to_prepare env ctl r _ h).1
  · exact (mem_to_prepare env ctl r _ h).2.1 w rfl
  · exact (mem_to_prepare env ctl r _ h).2.2 w rfl

/-- C13: among the calls of `ioctl_start_dev`, `register_wdev` is made for a
device if and only if `alldevs_add` is made for that device and returned 0,
and it is then the call right after that `alldevs_add`; when `alldevs_add` is
made and fails, the call returns `-EFAULT` with result code -7, no
`register_wdev` and no `alldevs_del` is made, and the calls end with that
`alldevs_add`, the write unlock and `destroy_wdev` of the device. -/
theorem ioctl_start_dev_register_after_add (env : Env) (ctl : walb_ctl) (k : Kern) :
    ∃ calls : List Ev,
      (ioctl_start_dev env ctl k).2.2.trace = k.trace ++ calls
      ∧ (∀ w, Ev.register_wdev w ∈ calls ↔
          (Ev.alldevs_add w ∈ calls ∧ (alldevs_add k.alldevs w).1 = 0))
      ∧ (∀ w, Ev.register_wdev w ∈ calls →
          ∃ pre post, calls = pre ++ [Ev.alldevs_add w, Ev.register_wdev w] ++ post)
      ∧ (∀ w, Ev.alldevs_add w ∈ calls → (alldevs_add k.alldevs w).1 ≠ 0 →
          (ioctl_start_dev env ctl k).1 = -EFAULT
          ∧ (ioctl_start_dev env ctl k).2.1.error = -7
          ∧ (∀ w2, Ev.register_wdev w2 ∉ calls)
          ∧ (∀ w2, Ev.alldevs_del w2 ∉ calls)
          ∧ ∃ pre, calls = pre ++
              [Ev.alldevs_add w, Ev.alldevs_write_unlock, Ev.destroy_wdev w]) := by
  rcases ioctl_start_dev_cases env ctl k with
    ⟨-, code, -, h⟩ | ⟨-, h⟩ | ⟨-, h⟩ | ⟨param, -, h⟩ | ⟨wdev, param, -, ha, h⟩
      | ⟨wdev, param, -, ha, -, h⟩ | ⟨wdev, param, -, ha, -, h⟩
  · exact ⟨[], by rw [h]; simp, by simp, by simp, by simp⟩
  · exact ⟨_, by rw [h], by simp, by simp, by simp⟩
  · exact ⟨_, by rw [h], by simp, by simp, by simp⟩
  · refine ⟨_, by rw [h], ?_, ?_, ?_⟩
    · intro w
      have := to_prepare_no_add env ctl k.alldevs w
      simp [this]
    · intro w
      have := to_prepare_no_add env ctl k.alldevs w
      simp [this]
    · intro w
      have := to_prepare_no_add env ctl k.alldevs w
      simp [this]
  · refine ⟨_, by rw [h], ?_, ?_, ?_⟩
    · intro w
      have := to_prepare_no_add env ctl k.alldevs w
      simp only [List.mem_append, List.mem_cons, this, false_or, List.mem_singleton,
        List.not_mem_nil, or_false, reduceCtorEq, Ev.alldevs_add.injEq]
      constructor
      · exact fun hf => hf.elim
      · rintro ⟨rfl, h0⟩
        exact ha h0
    · intro w
      have := to_prepare_no_add env ctl k.alldevs w
      simp [this]
    · intro w hw hne
      have hw2 := to_prepare_no_add env ctl k.alldevs w
      simp only [List.mem_append, List.mem_cons, hw2, false_or, List.mem_singleton,
        List.not_mem_nil, or_false, reduceCtorEq, Ev.alldevs_add.injEq] at hw
      subst hw
      rw [h]
      refine ⟨rfl, rfl, ?_, ?_, ⟨_, rfl⟩⟩
      · intro w2
        have := to_prepare_no_add env ctl k.alldevs w2
        simp [this]
      · intro w2
        have := to_prepare_no_add env ctl k.alldevs w2
        simp [this]
  · refine ⟨_, by rw [h], ?_, ?_, ?_⟩
    · intro w
      have := to_prepare_no_add env ctl k.alldevs w
      simp only [List.mem_append, List.mem_cons, this, false_or, List.mem_singleton,
        List.not_mem_nil, or_false, reduceCtorEq, Ev.alldevs_add.injEq,
        Ev.register_wdev.injEq]
      constructor
      · rintro rfl
        exact ⟨rfl, ha⟩
      · exact fun hh => hh.1
    · intro w hw
      have hw2 := to_prepare_no_add env ctl k.alldevs w
      simp only [List.mem_append, List.mem_cons, hw2, false_or, List.mem_singleton,
        List.not_mem_nil, or_false, reduceCtorEq, Ev.register_wdev.injEq] at hw
      subst hw
      exact ⟨start_dev_calls_to_prepare env ctl k.alldevs,
        [Ev.alldevs_del w, Ev.alldevs_write_unlock, Ev.destroy_wdev w], by simp⟩
    · intro w hw hne
      have hw2 := to_prepare_no_add env ctl k.alldevs w
      simp only [List.mem_append, List.mem_cons, hw2, false_or, List.mem_singleton,
        List.not_mem_nil, or_false, reduceCtorEq, Ev.alldevs_add.injEq] at hw
      subst hw
      exact absurd ha hne
  · refine ⟨_, by rw [h], ?_, ?_, ?_⟩
    · intro w
      have := to_prepare_no_add env ctl k.alldevs w
      simp only [List.mem_append, List.mem_cons, this, false_or, List.mem_singleton,
        List.not_mem_nil, or_false, reduceCtorEq, Ev.alldevs_add.injEq,
        Ev.register_wdev.injEq]
      constructor
      · rintro rfl
        exact ⟨rfl, ha⟩
      · exact fun hh => hh.1
    · intro w hw
      have hw2 := to_prepare_no_add env ctl k.alldevs w
      simp only [List.mem_append, List.mem_cons, hw2, false_or, List.mem_singleton,
        List.not_mem_nil, or_false, reduceCtorEq, Ev.register_wdev.injEq] at hw
      subst hw
      exact ⟨start_dev_calls_to_prepare env ctl k.alldevs, [Ev.alldevs_write_unlock], by simp⟩
    · intro w hw hne
      have hw2 := to_prepare_no_add env ctl k.alldevs w
      simp only [List.mem_append, List.mem_cons, hw2, false_or, List.mem_singleton,
        List.not_mem_nil, or_false, reduceCtorEq, Ev.alldevs_add.injEq] at hw
      subst hw
      exact absurd ha hne

theorem ioctl_start_dev_register_after_add_witness :
    (ioctl_start_dev sample_env (sample_start 0 1 2) sample_kern).1 = -EFAULT
      ∧ (ioctl_start_dev sample_env (sample_start 0 1 2) sample_kern).2.1.error = -7 := by
  obtain ⟨calls, htr, -, -, h⟩ :=
    ioctl_start_dev_register_after_add sample_env (sample_start 0 1 2) sample_kern
  have hc : calls = (ioctl_start_dev sample_env (sample_start 0 1 2) sample_kern).2.2.trace := by
    rw [htr]
    rfl
  obtain ⟨h1, h2, -⟩ := h ⟨0, MKDEV 8 1, MKDEV 8 2, [1, 1]⟩ (by rw [hc]; decide) (by decide)
  exact ⟨h1, h2⟩

theorem ioctl_start_dev_invalid_state (env : Env) (ctl : walb_ctl) (k : Kern)
    (h : ctl.u2k.buf_size ≠ env.sizeof_walb_start_param
      ∨ ctl.k2u.buf_size ≠ env.sizeof_walb_start_param
      ∨ env.is_walb_start_param_valid (ctl.u2k.kbuf.getD []) = false) :
    (ioctl_start_dev env ctl k).2.2 = k := by
  unfold ioctl_start_dev
  by_cases h1 : ctl.u2k.buf_size = env.sizeof_walb_start_param
  · by_cases h2 : ctl.k2u.buf_size = env.sizeof_walb_start_param
    · have h3 : env.is_walb_start_param_valid (ctl.u2k.kbuf.getD []) = false := by
        rcases h with h | h | h
        · exact absurd h1 h
        · exact absurd h2 h
        · exact h
      simp [h1, h2, h3]
    · simp [h1, h2]
  · simp [h1]

/-- C19: for a StartDevice request that passes validation and the in-use
checks, the device is constructed with, and on success the caller is returned,
the minor `start_dev_wminor`: for a requested minor other than
`WALB_DYNAMIC_MINOR` it is the requested minor with its lowest bit cleared
(even, the request itself when that is even, one less when it is odd) and
`get_free_minor` is not called; for `WALB_DYNAMIC_MINOR` it is the value of
`get_free_minor()`, called under the write lock, and the only lock call made
up to the construction is the write lock taken at the start, the insert
following the construction directly. -/
theorem ioctl_start_dev_minor (env : Env) (ctl : walb_ctl) (k : Kern)
    (hu : ctl.u2k.buf_size = env.sizeof_walb_start_param)
    (hk : ctl.k2u.buf_size = env.sizeof_walb_start_param)
    (hv : env.is_walb_start_param_valid (ctl.u2k.kbuf.getD []) = true)
    (hl : alldevs_is_already_used k.alldevs (MKDEV ctl.u2k.lmajor ctl.u2k.lminor) = false)
    (hd : alldevs_is_already_used k.alldevs (MKDEV ctl.u2k.dmajor ctl.u2k.dminor) = false) :
    ∃ rest : List Ev,
      (ioctl_start_dev env ctl k).2.2.trace =
          k.trace ++ (start_dev_calls_to_prepare env ctl k.alldevs ++ rest)
      ∧ Ev.prepare_wdev (start_dev_wminor env ctl k.alldevs)
          (MKDEV ctl.u2k.lmajor ctl.u2k.lminor) (MKDEV ctl.u2k.dmajor ctl.u2k.dminor)
          ∈ start_dev_calls_to_prepare env ctl k.alldevs
      ∧ ((ioctl_start_dev env ctl k).1 = 0 →
          (ioctl_start_dev env ctl k).2.1.k2u.wminor = start_dev_wminor env ctl k.alldevs)
      ∧ (ctl.u2k.wminor ≠ env.WALB_DYNAMIC_MINOR →
          start_dev_wminor env ctl k.alldevs = ctl.u2k.wminor - ctl.u2k.wminor % 2
          ∧ start_dev_wminor env ctl k.alldevs % 2 = 0
          ∧ (ctl.u2k.wminor % 2 = 0 → start_dev_wminor env ctl k.alldevs = ctl.u2k.wminor)
          ∧ (ctl.u2k.wminor % 2 = 1 → start_dev_wminor env ctl k.alldevs + 1 = ctl.u2k.wminor)
          ∧ (∀ c ∈ start_dev_calls_to_prepare env ctl k.alldevs, c.is_get_free_minor = false))
      ∧ (ctl.u2k.wminor = env.WALB_DYNAMIC_MINOR →
          start_dev_wminor env ctl k.alldevs = get_free_minor k.alldevs
          ∧ locks_when Ev.is_get_free_minor LockState.unlocked
              (start_dev_calls_to_prepare env ctl k.alldevs) = [LockState.write_locked])
      ∧ (start_dev_calls_to_prepare env ctl k.alldevs).filter Ev.is_lock_call
          = [Ev.alldevs_write_lock]
      ∧ (∀ wdev param,
          env.prepare_wdev (start_dev_wminor env ctl k.alldevs)
            (MKDEV ctl.u2k.lmajor ctl.u2k.lminor) (MKDEV ctl.u2k.dmajor ctl.u2k.dminor)
            (ctl.u2k.kbuf.getD []) = (some wdev, param) →
          ∃ rest2, rest = Ev.alldevs_add wdev :: rest2) := by
  have hE : (-EFAULT : Int) ≠ 0 := by decide
  have hmem : Ev.prepare_wdev (start_dev_wminor env ctl k.alldevs)
      (MKDEV ctl.u2k.lmajor ctl.u2k.lminor) (MKDEV ctl.u2k.dmajor ctl.u2k.dminor)
      ∈ start_dev_calls_to_prepare env ctl k.alldevs := by
    simp [start_dev_calls_to_prepare]
  have hstatic : ctl.u2k.wminor ≠ env.WALB_DYNAMIC_MINOR →
      start_dev_wminor env ctl k.alldevs = ctl.u2k.wminor - ctl.u2k.wminor % 2
      ∧ start_dev_wminor env ctl k.alldevs % 2 = 0
      ∧ (ctl.u2k.wminor % 2 = 0 → start_dev_wminor env ctl k.alldevs = ctl.u2k.wminor)
      ∧ (ctl.u2k.wminor % 2 = 1 → start_dev_wminor env ctl k.alldevs + 1 = ctl.u2k.wminor)
      ∧ (∀ c ∈ start_dev_calls_to_prepare env ctl k.alldevs, c.is_get_free_minor = false) := by
    intro hdyn
    have hm : start_dev_wminor env ctl k.alldevs = ctl.u2k.wminor - ctl.u2k.wminor % 2 := by
      simp [start_dev_wminor, hdyn]
    refine ⟨hm, by omega, by omega, by omega, ?_⟩
    intro c hc
    simp only [start_dev_calls_to_prepare, start_dev_minor_calls, hdyn, if_false,
      List.cons_append, List.nil_append, List.append_nil, List.mem_cons, List.mem_singleton,
      List.not_mem_nil, or_false] at hc
    rcases hc with h | h | h | h <;> subst h <;> rfl
  have hdynamic : ctl.u2k.wminor = env.WALB_DYNAMIC_MINOR →
      start_dev_wminor env ctl k.alldevs = get_free_minor k.alldevs
      ∧ locks_when Ev.is_get_free_minor LockState.unlocked
          (start_dev_calls_to_prepare env ctl k.alldevs) = [LockState.write_locked] := by
    intro hdyn
    constructor
    · simp [start_dev_wminor, hdyn]
    · simp [start_dev_calls_to_prepare, start_dev_minor_calls, hdyn, locks_when, lock_step,
        Ev.is_get_free_minor]
  have hlock : (start_dev_calls_to_prepare env ctl k.alldevs).filter Ev.is_lock_call
      = [Ev.alldevs_write_lock] := by
    by_cases hdyn : ctl.u2k.wminor = env.WALB_DYNAMIC_MINOR
    · simp [start_dev_calls_to_prepare, start_dev_minor_calls, hdyn, Ev.is_lock_call]
    · simp [start_dev_calls_to_prepare, start_dev_minor_calls, hdyn, Ev.is_lock_call]
  rcases ioctl_start_dev_cases env ctl k with
    ⟨hm, -⟩ | ⟨hl2, -⟩ | ⟨hd2, -⟩ | ⟨p2, hp2, h⟩ | ⟨w2, p2, hp2, -, h⟩
      | ⟨w2, p2, hp2, -, -, h⟩ | ⟨w2, p2, hp2, -, -, h⟩
  · rcases hm with hm | hm | hm
    · exact absurd hu hm
    · exact absurd hk hm
    · rw [hv] at hm
      cases hm
  · rw [hl] at hl2
    cases hl2
  · rw [hd] at hd2
    cases hd2
  · refine ⟨[Ev.alldevs_write_unlock], by rw [h], hmem, ?_, hstatic, hdynamic, hlock, ?_⟩
    · rw [h]
      intro h0
      exact absurd h0 hE
    · intro wdev param hp
      rw [hp] at hp2
      cases hp2
  · refine ⟨_, by rw [h], hmem, ?_, hstatic, hdynamic, hlock, ?_⟩
    · rw [h]
      intro h0
      exact absurd h0 hE
    · intro wdev param hp
      rw [hp] at hp2
      cases hp2
      exact ⟨_, rfl⟩
  · refine ⟨_, by rw [h], hmem, ?_, hstatic, hdynamic, hlock, ?_⟩
    · rw [h]
      intro h0
      exact absurd h0 hE
    · intro wdev param hp
      rw [hp] at hp2
      cases hp2
      exact ⟨_, rfl⟩
  · refine ⟨_, by rw [h], hmem, ?_, hstatic, hdynamic, hlock, ?_⟩
    · rw [h]
      intro _
      rfl
    · intro wdev param hp
      rw [hp] at hp2
      cases hp2
      exact ⟨_, rfl⟩

theorem ioctl_start_dev_minor_witness :
    start_dev_wminor sample_env (sample_start 5 1 2) sample_kern.alldevs + 1 = 5 := by
  obtain ⟨rest, -, -, -, hs, -⟩ := ioctl_start_dev_minor sample_env (sample_start 5 1 2)
    sample_kern (by decide) (by decide) (by decide) (by decide) (by decide)
  exact (hs (by decide)).2.2.2.1 (by decide)

/-! ## Locking -/

/-- C20: on every path of `ioctl_start_dev` and of `ioctl_stop_dev` the calls
respect the locking discipline (a lock is taken only when none is held and
released only when that same lock is held) and leave no lock held on return;
a StartDevice request that fails validation and a StopDevice request for
another major make no call at all. -/
theorem start_stop_dev_locks_balanced (env : Env) (ctl : walb_ctl) (k : Kern) :
    (∃ calls : List Ev,
      (ioctl_start_dev env ctl k).2.2.trace = k.trace ++ calls
      ∧ lock_run LockState.unlocked calls = some LockState.unlocked
      ∧ ((ctl.u2k.buf_size ≠ env.sizeof_walb_start_param
          ∨ ctl.k2u.buf_size ≠ env.sizeof_walb_start_param
          ∨ env.is_walb_start_param_valid (ctl.u2k.kbuf.getD []) = false) → calls = []))
    ∧ (∃ calls : List Ev,
      (ioctl_stop_dev env ctl k).2.2.trace = k.trace ++ calls
      ∧ lock_run LockState.unlocked calls = some LockState.unlocked
      ∧ (ctl.u2k.wmajor ≠ env.walb_major_ → calls = [])) := by
  constructor
  · by_cases hm : ctl.u2k.buf_size ≠ env.sizeof_walb_start_param
        ∨ ctl.k2u.buf_size ≠ env.sizeof_walb_start_param
        ∨ env.is_walb_start_param_valid (ctl.u2k.kbuf.getD []) = false
    · refine ⟨[], ?_, rfl, fun _ => rfl⟩
      rw [ioctl_start_dev_invalid_state env ctl k hm]
      simp
    · rcases ioctl_start_dev_cases env ctl k with
        ⟨hm2, -⟩ | ⟨-, h⟩ | ⟨-, h⟩ | ⟨p2, -, h⟩ | ⟨w2, p2, -, -, h⟩
          | ⟨w2, p2, -, -, -, h⟩ | ⟨w2, p2, -, -, -, h⟩
      · exact absurd hm2 hm
      · exact ⟨_, by rw [h], by simp [lock_run, lock_checked], fun h2 => absurd h2 hm⟩
      · exact ⟨_, by rw [h], by simp [lock_run, lock_checked], fun h2 => absurd h2 hm⟩
      · refine ⟨_, by rw [h], ?_, fun h2 => absurd h2 hm⟩
        rw [lock_run_to_prepare]
        simp [lock_run, lock_checked]
      · refine ⟨_, by rw [h], ?_, fun h2 => absurd h2 hm⟩
        rw [lock_run_to_prepare]
        simp [lock_run, lock_checked]
      · refine ⟨_, by rw [h], ?_, fun h2 => absurd h2 hm⟩
        rw [lock_run_to_prepare]
        simp [lock_run, lock_checked]
      · refine ⟨_, by rw [h], ?_, fun h2 => absurd h2 hm⟩
        rw [lock_run_to_prepare]
        simp [lock_run, lock_checked]
  · by_cases hmajor : ctl.u2k.wmajor = env.walb_major_
    · rcases hs : search_wdev_with_minor k.alldevs ctl.u2k.wminor with _ | wdev
      · refine ⟨[Ev.alldevs_read_lock, Ev.search_wdev_with_minor ctl.u2k.wminor,
          Ev.alldevs_read_unlock], ?_, ?_, fun h2 => absurd hmajor h2⟩
        · simp [ioctl_stop_dev, hmajor, hs, Kern.call]
        · simp [lock_run, lock_checked]
      · refine ⟨[Ev.alldevs_read_lock, Ev.search_wdev_with_minor ctl.u2k.wminor,
          Ev.alldevs_read_unlock, Ev.unregister_wdev wdev, Ev.alldevs_write_lock,
          Ev.alldevs_del wdev, Ev.alldevs_write_unlock, Ev.destroy_wdev wdev], ?_, ?_,
          fun h2 => absurd hmajor h2⟩
        · simp [ioctl_stop_dev, hmajor, hs, Kern.call]
        · simp [lock_run, lock_checked]
    · refine ⟨[], ?_, rfl, fun _ => rfl⟩
      simp [ioctl_stop_dev, hmajor]

theorem start_stop_dev_locks_balanced_witness :
    (ioctl_start_dev sample_env { sample_start 4 1 2 with k2u := sample_data }
        sample_kern).2.2.trace = []
      ∧ (ioctl_stop_dev sample_env (sample_start 0 0 0) sample_kern).2.2.trace = [] := by
  obtain ⟨⟨c1, h1, -, g1⟩, ⟨c2, h2, -, g2⟩⟩ := start_stop_dev_locks_balanced sample_env
    { sample_start 4 1 2 with k2u := sample_data } sample_kern
  obtain ⟨-, ⟨c3, h3, -, g3⟩⟩ := start_stop_dev_locks_balanced sample_env
    (sample_start 0 0 0) sample_kern
  rw [h1, h3, g1 (Or.inr (Or.inl (by decide))), g3 (by decide)]
  exact ⟨rfl, rfl⟩

/-- C15 (the code departs from it): `ioctl_num_of_dev` makes one registry
read, `get_n_devices`, and a ListDevices envelope with a valid range makes
`ioctl_list_dev` make one registry read, `get_wdev_list_range`; each is made
with the registry lock not held, neither handler taking the lock. -/
theorem list_dev_num_of_dev_unlocked (env : Env) (ctl : walb_ctl) (k : Kern) :
    (∃ calls : List Ev,
      (ioctl_num_of_dev env ctl k).2.2.trace = k.trace ++ calls
      ∧ locks_when Ev.is_registry_read LockState.unlocked calls = [LockState.unlocked])
    ∧ (¬ ctl.u2k.buf_size < sizeof_unsigned_int * 2 →
        read_uint (ctl.u2k.kbuf.getD []) 0 < read_uint (ctl.u2k.kbuf.getD []) 1 →
        ∃ calls : List Ev,
          (ioctl_list_dev env ctl k).2.2.trace = k.trace ++ calls
          ∧ locks_when Ev.is_registry_read LockState.unlocked calls = [LockState.unlocked]) := by
  constructor
  · exact ⟨[Ev.get_n_devices], rfl, rfl⟩
  · intro hsz hrange
    have hr : ¬ read_uint (ctl.u2k.kbuf.getD []) 0 ≥ read_uint (ctl.u2k.kbuf.getD []) 1 := by
      omega
    refine ⟨[Ev.get_wdev_list_range ctl.k2u.kbuf.isSome
      (if ctl.k2u.kbuf.isSome then ctl.k2u.buf_size / env.sizeof_walb_disk_data else UINT_MAX)
      (read_uint (ctl.u2k.kbuf.getD []) 0) (read_uint (ctl.u2k.kbuf.getD []) 1)], ?_, rfl⟩
    unfold ioctl_list_dev
    simp [hsz, hr, Kern.call]

theorem list_dev_num_of_dev_unlocked_witness :
    ∃ calls : List Ev,
      (ioctl_list_dev sample_env sample_list sample_kern5).2.2.trace
          = sample_kern5.trace ++ calls
      ∧ locks_when Ev.is_registry_read LockState.unlocked calls = [LockState.unlocked] :=
  (list_dev_num_of_dev_unlocked sample_env sample_list sample_kern5).2 (by decide) (by decide)

/-! ## ListDevices with no output capacity -/

theorem to_int_small (n : Nat) (h : n < 2 ^ 31) : to_int n = (n : Int) := by
  have h1 : n % 2 ^ 32 = n := Nat.mod_eq_of_lt (by omega)
  unfold to_int
  rw [h1]
  exact if_pos h

/-- C11: a ListDevices envelope with a valid range `minor[0] < minor[1]` and
output capacity zero (`k2u.buf_size = 0`, whatever the output buffer pointer
and the other fields are) succeeds, leaves the output side of the envelope as
it was (no summary record is written) and sets the auxiliary result to the
number of registry records with `minor[0] <= minor < minor[1]`, that number
fitting an `int`; the registry is unchanged. -/
theorem ioctl_list_dev_zero_capacity (env : Env) (ctl : walb_ctl) (k : Kern)
    (hsz : ¬ ctl.u2k.buf_size < sizeof_unsigned_int * 2)
    (hrange : read_uint (ctl.u2k.kbuf.getD []) 0 < read_uint (ctl.u2k.kbuf.getD []) 1)
    (hcap : ctl.k2u.buf_size = 0)
    (hfit : (wdevs_in_range k.alldevs (read_uint (ctl.u2k.kbuf.getD []) 0)
        (read_uint (ctl.u2k.kbuf.getD []) 1)).length < 2 ^ 31) :
    (ioctl_list_dev env ctl k).1 = 0
      ∧ (ioctl_list_dev env ctl k).2.1.k2u = ctl.k2u
      ∧ (ioctl_list_dev env ctl k).2.1.val_int =
          ((wdevs_in_range k.alldevs (read_uint (ctl.u2k.kbuf.getD []) 0)
            (read_uint (ctl.u2k.kbuf.getD []) 1)).length : Int)
      ∧ (ioctl_list_dev env ctl k).2.2.alldevs = k.alldevs := by
  have hr : ¬ read_uint (ctl.u2k.kbuf.getD []) 0 ≥ read_uint (ctl.u2k.kbuf.getD []) 1 := by
    omega
  have hto := to_int_small _ hfit
  have hn : ctl.k2u.buf_size / env.sizeof_walb_disk_data = 0 := by
    rw [hcap]
    exact Nat.zero_div _
  unfold ioctl_list_dev
  rcases hb : ctl.k2u.kbuf with _ | buf
  · simp [hsz, hr, hb, Kern.call, get_wdev_list_range, hto]
    rw [← hb]
  · simp [hsz, hr, hn, hb, Kern.call, get_wdev_list_range, hto, write_bytes]
    rw [← hb]

theorem ioctl_list_dev_zero_capacity_witness :
    (ioctl_list_dev sample_env sample_list sample_kern5).1 = 0
      ∧ (ioctl_list_dev sample_env sample_list sample_kern5).2.1.k2u = sample_list.k2u
      ∧ (ioctl_list_dev sample_env sample_list sample_kern5).2.1.val_int = 5 := by
  obtain ⟨h1, h2, h3, -⟩ := ioctl_list_dev_zero_capacity sample_env sample_list sample_kern5
    (by decide) (by decide) rfl (by decide)
  exact ⟨h1, h2, by rw [h3]; decide⟩

/-! ## Ordering of the pipeline -/

/-- C16 (the code departs from it): when an operation `a` and then an
operation `b` are submitted, both allocations succeeding, and no worker has
run yet, the completion of `b` has already been signalled (with `-EIO`, by the
fall through to `error0` in `simple_blk_bio_make_request`) while the backing
store is still the one before `a`, so for a Write `a` that changes the store
and a Flush `b` the effect of `a` is not applied before the completion of `b`
is signalled. -/
theorem flush_signalled_at_submission (a b : bio) (p : Pipeline) :
    (simple_blk_bio_make_request true b (simple_blk_bio_make_request true a p)).mdata = p.mdata
      ∧ (simple_blk_bio_make_request true b (simple_blk_bio_make_request true a p)).wq_io_
          = p.wq_io_
      ∧ (simple_blk_bio_make_request true b (simple_blk_bio_make_request true a p)).trace
          = p.trace ++
            [PEv.queue_work_misc { bio := a, func := work_fn.bio_worker },
              PEv.bio_endio a (- EIO),
              PEv.queue_work_misc { bio := b, func := work_fn.bio_worker },
              PEv.bio_endio b (- EIO)]
      ∧ (mdata_exec_bio ⟨1, [[0]]⟩ ⟨0, 1, REQ_WRITE, 0, [[7]]⟩).1 ≠ ⟨1, [[0]]⟩ := by
  refine ⟨?_, ?_, ?_, by decide⟩
  · simp [simple_blk_bio_make_request, create_bio_work, Pipeline.call]
  · simp [simple_blk_bio_make_request, create_bio_work, Pipeline.call]
  · simp [simple_blk_bio_make_request, create_bio_work, Pipeline.call]

/-- C18: for a work item whose operation is not a zero length Flush,
`bio_worker` queues the work item once on the execution queue with
`bio_io_worker` as its function, and signals no completion and destroys
nothing; without the Flush flag that is its only call, with the Flush flag it
first drains the execution queue (the calls of the drain execute only
operations queued before, and arm their timers) and then queues the work
item. -/
theorem bio_worker_forwards (w : bio_work) (p : Pipeline)
    (h : ¬ (w.bio.bi_rw &&& REQ_FLUSH ≠ 0 ∧ w.bio.bi_size = 0)) :
    (w.bio.bi_rw &&& REQ_FLUSH = 0 →
      bio_worker w p =
        { p with
          wq_io_ := p.wq_io_ ++ [{ w with func := work_fn.bio_io_worker }]
          trace := p.trace ++ [PEv.queue_work_io { w with func := work_fn.bio_io_worker }] })
    ∧ (w.bio.bi_rw &&& REQ_FLUSH ≠ 0 →
      (bio_worker w p).wq_io_ = [{ w with func := work_fn.bio_io_worker }]
      ∧ (bio_worker w p).wq_misc_ = p.wq_misc_
      ∧ (bio_worker w p).mdata = (flush_workqueue_io p).mdata
      ∧ ∃ drained : List PEv,
          (bio_worker w p).trace =
            p.trace ++ [PEv.flush_workqueue_io] ++ drained
              ++ [PEv.queue_work_io { w with func := work_fn.bio_io_worker }]
          ∧ ∀ c ∈ drained,
              (∃ w1 ∈ p.wq_io_, c = PEv.mdata_exec_bio w1.bio)
                ∨ (∃ w2 : bio_work, c = PEv.add_timer w2)) := by
  constructor
  · intro hf
    simp [bio_worker, hf, Pipeline.call]
  · intro hf
    have hz : ¬ w.bio.bi_size = 0 := fun hz => h ⟨hf, hz⟩
    have hw : bio_worker w p =
        { (flush_workqueue_io p).call
            (PEv.queue_work_io { w with func := work_fn.bio_io_worker }) with
          wq_io_ := (flush_workqueue_io p).wq_io_ ++ [{ w with func := work_fn.bio_io_worker }] } := by
      simp [bio_worker, hf, hz]
    obtain ⟨h1, h2, calls, h3, h4⟩ :=
      foldl_bio_io_worker p.wq_io_ { p.call PEv.flush_workqueue_io with wq_io_ := [] }
    have hq : (flush_workqueue_io p).wq_io_ = [] := by
      simpa [Pipeline.call, flush_workqueue_io] using h1
    refine ⟨?_, ?_, ?_, calls, ?_, h4⟩
    · rw [hw]
      simp [Pipeline.call, hq]
    · rw [hw]
      simpa [Pipeline.call, flush_workqueue_io] using h2
    · rw [hw]
      rfl
    · rw [hw]
      simp only [Pipeline.call, flush_workqueue_io] at h3 ⊢
      rw [h3]

theorem bio_worker_forwards_witness :
    bio_worker ⟨⟨0, 1, REQ_WRITE, 0, [[7]]⟩, work_fn.bio_worker⟩ ⟨⟨1, [[0]]⟩, [], [], [], []⟩
      = { mdata := ⟨1, [[0]]⟩
          wq_misc_ := []
          wq_io_ := [⟨⟨0, 1, REQ_WRITE, 0, [[7]]⟩, work_fn.bio_io_worker⟩]
          timers := []
          trace := [PEv.queue_work_io ⟨⟨0, 1, REQ_WRITE, 0, [[7]]⟩, work_fn.bio_io_worker⟩] } :=
  (bio_worker_forwards ⟨⟨0, 1, REQ_WRITE, 0, [[7]]⟩, work_fn.bio_worker⟩
    ⟨⟨1, [[0]]⟩, [], [], [], []⟩ (by decide)).1 (by decide)

/-! ## `formatString` -/

/-- C17: `formatString` returns exactly the bytes the formatting produced,
as many as the value it returned says, when the formatting succeeds (bytes
after an embedded NUL included), and throws `std::runtime_error` when the
formatting reports failure; with the C library formatting,
`formatString("%s%c%s", "012", (char)0, "345")` is the seven bytes
`0 1 2 NUL 3 4 5`, `formatString("%s%s", "0123456789", "0123456789")` has
size 20, and `formatString(nullptr)` throws. -/
theorem formatString_bytes
    (vas : Option (List Nat) → List printf_arg → Int × List Nat)
    (format : Option (List Nat)) (args : List printf_arg) :
    (∀ out : List Nat, vas format args = ((out.length : Int), out ++ [0]) →
        formatString vas format args = Except.ok out)
    ∧ ((vas format args).1 < 0 →
        formatString vas format args = Except.error "vasprintf failed.")
    ∧ formatString vasprintf (some (bytes_of "%s%c%s"))
          [printf_arg.str (bytes_of "012"), printf_arg.chr 0, printf_arg.str (bytes_of "345")]
        = Except.ok [48, 49, 50, 0, 51, 52, 53]
    ∧ formatString vasprintf (some (bytes_of "%s%s"))
          [printf_arg.str (bytes_of "0123456789"), printf_arg.str (bytes_of "0123456789")]
        = Except.ok (bytes_of "01234567890123456789")
    ∧ (bytes_of "01234567890123456789").length = 20
    ∧ formatString vasprintf none [] = Except.error "vasprintf failed." := by
  refine ⟨?_, ?_, by rfl, by rfl, by rfl, by rfl⟩
  · intro out h
    simp [formatString, h]
  · intro h
    simp only [formatString]
    exact if_pos h

theorem formatString_bytes_witness :
    formatString vasprintf (some (bytes_of "a%cb")) [printf_arg.chr 0] = Except.ok [97, 0, 98] :=
  (formatString_bytes vasprintf (some (bytes_of "a%cb")) [printf_arg.chr 0]).1 [97, 0, 98] rfl

/-! ## `mergeStats` -/

/-- C21 (the code departs from it): for a non-negative response time `rt`,
`mergeStats` over the object built from the list `[rt]` followed by the object
built from the empty list has minimum -1 (the sentinel of the empty object is
taken as a minimum), while the single object given all the response times has
minimum `rt`; total, maximum and count agree. -/
theorem mergeStats_empty_after (rt : ℚ) (h : 0 ≤ rt) :
    mergeStats [stats_of [rt], stats_of []]
        = { total_ := rt, max_ := rt, min_ := -1, count_ := 1 }
      ∧ stats_of ([rt] ++ []) = { total_ := rt, max_ := rt, min_ := rt, count_ := 1 } := by
  have h1 : ¬ rt < 0 := not_lt.mpr h
  have h2 : ¬ rt < -1 := by
    intro hlt
    linarith
  have h3 : (-1 : ℚ) < rt := by linarith
  constructor
  · simp [mergeStats, mergeStats_step, stats_of, PerformanceStatistics.updateRt,
      PerformanceStatistics.new, h1, h2, h3]
  · simp [stats_of, PerformanceStatistics.updateRt, PerformanceStatistics.new]

theorem mergeStats_empty_after_witness :
    mergeStats [stats_of [5], stats_of []]
        = { total_ := 5, max_ := 5, min_ := -1, count_ := 1 }
      ∧ stats_of ([5] ++ []) = { total_ := 5, max_ := 5, min_ := 5, count_ := 1 } :=
  mergeStats_empty_after 5 (by norm_num)

theorem updateRt_started (s : PerformanceStatistics) (rt : ℚ)
    (hs : s.good) (hrt : 0 ≤ rt) :
    0 ≤ (s.updateRt rt).min_ ∧ (s.updateRt rt).min_ ≤ (s.updateRt rt).max_ := by
  unfold PerformanceStatistics.updateRt
  rcases hs with ⟨h1, h2⟩ | ⟨h1, h2⟩
  · simp [h1, h2]
    exact hrt
  · dsimp only
    split_ifs with c1 c2 c3
    · exact ⟨hrt, le_refl _⟩
    · exact ⟨h1, by linarith⟩
    · exact ⟨hrt, not_lt.mp c2⟩
    · exact ⟨h1, h2⟩

theorem foldl_updateRt_good (rts : List ℚ) :
    ∀ s : PerformanceStatistics, s.good → (∀ rt ∈ rts, 0 ≤ rt) →
      (rts.foldl PerformanceStatistics.updateRt s).good := by
  induction rts with
  | nil => exact fun s hs _ => hs
  | cons x xs ih =>
    intro s hs hpos
    simp only [List.foldl_cons]
    exact ih _ (Or.inr (updateRt_started s x hs (hpos x (List.mem_cons_self _ _))))
      (fun rt hrt => hpos rt (List.mem_cons_of_mem _ hrt))

theorem foldl_updateRt_started (rts : List ℚ) (hne : rts ≠ []) :
    ∀ s : PerformanceStatistics, s.good → (∀ rt ∈ rts, 0 ≤ rt) →
      0 ≤ (rts.foldl PerformanceStatistics.updateRt s).min_
      ∧ (rts.foldl PerformanceStatistics.updateRt s).min_
          ≤ (rts.foldl PerformanceStatistics.updateRt s).max_ := by
  induction rts using List.reverseRecOn with
  | nil => exact absurd rfl hne
  | append_singleton xs x _ =>
    intro s hs hpos
    rw [List.foldl_append]
    simp only [List.foldl_cons, List.foldl_nil]
    exact updateRt_started _ x
      (foldl_updateRt_good xs s hs (fun rt hrt => hpos rt (List.mem_append_left _ hrt)))
      (hpos x (by simp))

theorem mergeStats_step_one (s : PerformanceStatistics) (rt : ℚ)
    (hs : s.good) (hrt : 0 ≤ rt) :
    mergeStats_step s.locals (PerformanceStatistics.new.updateRt rt) = (s.updateRt rt).locals := by
  have hn : ¬ rt < 0 := not_lt.mpr hrt
  rcases hs with ⟨h1, h2⟩ | ⟨h1, h2⟩
  · simp [mergeStats_step, PerformanceStatistics.locals, PerformanceStatistics.updateRt,
      PerformanceStatistics.new, h1, h2]
  · have hmax : ¬ s.max_ < 0 := not_lt.mpr (le_trans h1 h2)
    have hmin : ¬ s.min_ < 0 := not_lt.mpr h1
    by_cases c2 : s.max_ < rt
    · have c3 : ¬ rt < s.min_ := by
        intro hlt
        linarith
      simp [mergeStats_step, PerformanceStatistics.locals, PerformanceStatistics.updateRt,
        PerformanceStatistics.new, hmax, hmin, c2, c3]
    · by_cases c3 : rt < s.min_
      · simp [mergeStats_step, PerformanceStatistics.locals, PerformanceStatistics.updateRt,
          PerformanceStatistics.new, hmax, hmin, c2, c3]
      · simp [mergeStats_step, PerformanceStatistics.locals, PerformanceStatistics.updateRt,
          PerformanceStatistics.new, hmax, hmin, c2, c3]

theorem updateRt_of_started (t : PerformanceStatistics) (x : ℚ)
    (ht : 0 ≤ t.min_ ∧ t.min_ ≤ t.max_) :
    t.updateRt x =
      { total_ := t.total_ + x, max_ := max t.max_ x, min_ := min t.min_ x,
        count_ := t.count_ + 1 } := by
  have hmax : ¬ t.max_ < 0 := not_lt.mpr (le_trans ht.1 ht.2)
  have hmin : ¬ t.min_ < 0 := not_lt.mpr ht.1
  by_cases c2 : t.max_ < x
  · have e1 : max t.max_ x = x := max_eq_right (le_of_lt c2)
    have e2 : min t.min_ x = t.min_ := min_eq_left (by linarith [ht.2])
    simp [PerformanceStatistics.updateRt, hmax, hmin, c2, e1, e2]
  · have e1 : max t.max_ x = t.max_ := max_eq_left (not_lt.mp c2)
    by_cases c3 : x < t.min_
    · have e2 : min t.min_ x = x := min_eq_right (le_of_lt c3)
      simp [PerformanceStatistics.updateRt, hmax, hmin, c2, c3, e1, e2]
    · have e2 : min t.min_ x = t.min_ := min_eq_left (not_lt.mp c3)
      simp [PerformanceStatistics.updateRt, hmax, hmin, c2, c3, e1, e2]

theorem mergeStats_step_started (s t : PerformanceStatistics)
    (hs : 0 ≤ s.min_ ∧ s.min_ ≤ s.max_) :
    mergeStats_step s.locals t =
      (s.total_ + t.total_, max s.max_ t.max_, min s.min_ t.min_, s.count_ + t.count_) := by
  have hmax : ¬ s.max_ < 0 := not_lt.mpr (le_trans hs.1 hs.2)
  have hmin : ¬ s.min_ < 0 := not_lt.mpr hs.1
  have e1 : (if s.max_ < t.max_ then t.max_ else s.max_) = max s.max_ t.max_ := by
    by_cases c : s.max_ < t.max_
    · simp [c, max_eq_right (le_of_lt c)]
    · simp [c, max_eq_left (not_lt.mp c)]
  have e2 : (if t.min_ < s.min_ then t.min_ else s.min_) = min s.min_ t.min_ := by
    by_cases c : t.min_ < s.min_
    · simp [c, min_eq_right (le_of_lt c)]
    · simp [c, min_eq_left (not_lt.mp c)]
  simp [mergeStats_step, PerformanceStatistics.locals, hmax, hmin, e1, e2]

theorem mergeStats_step_fresh (s t : PerformanceStatistics)
    (hs : s.max_ = -1 ∧ s.min_ = -1) :
    mergeStats_step s.locals t =
      (s.total_ + t.total_, t.max_, t.min_, s.count_ + t.count_) := by
  simp [mergeStats_step, PerformanceStatistics.locals, hs.1, hs.2]

theorem mergeStats_step_updateRt (s t u : PerformanceStatistics) (x : ℚ)
    (hs : s.good) (ht : 0 ≤ t.min_ ∧ t.min_ ≤ t.max_)
    (hu : mergeStats_step s.locals t = u.locals) :
    mergeStats_step s.locals (t.updateRt x) = (u.updateRt x).locals := by
  rcases hs with hs | hs
  · rw [mergeStats_step_fresh s t hs] at hu
    rw [mergeStats_step_fresh s _ hs, updateRt_of_started t x ht]
    simp only [PerformanceStatistics.locals, Prod.mk.injEq] at hu
    obtain ⟨h1, h2, h3, h4⟩ := hu
    have hu2 : 0 ≤ u.min_ ∧ u.min_ ≤ u.max_ := by
      rw [← h2, ← h3]
      exact ht
    rw [updateRt_of_started u x hu2]
    simp only [PerformanceStatistics.locals, Prod.mk.injEq]
    rw [← h1, ← h2, ← h3, ← h4]
    exact ⟨(add_assoc _ _ _).symm, rfl, rfl, (Nat.add_assoc _ _ _).symm⟩
  · rw [mergeStats_step_started s t hs] at hu
    rw [mergeStats_step_started s _ hs, updateRt_of_started t x ht]
    simp only [PerformanceStatistics.locals, Prod.mk.injEq] at hu
    obtain ⟨h1, h2, h3, h4⟩ := hu
    have hu2 : 0 ≤ u.min_ ∧ u.min_ ≤ u.max_ := by
      rw [← h2, ← h3]
      exact ⟨le_min hs.1 ht.1, le_trans (min_le_left _ _) (le_trans hs.2 (le_max_left _ _))⟩
    rw [updateRt_of_started u x hu2]
    simp only [PerformanceStatistics.locals, Prod.mk.injEq]
    rw [← h1, ← h2, ← h3, ← h4]
    exact ⟨(add_assoc _ _ _).symm, (max_assoc _ _ _).symm, (min_assoc _ _ _).symm,
      (Nat.add_assoc _ _ _).symm⟩

theorem mergeStats_step_stats_of (rts : List ℚ) (hne : rts ≠ []) :
    ∀ s : PerformanceStatistics, s.good → (∀ rt ∈ rts, 0 ≤ rt) →
      mergeStats_step s.locals (stats_of rts)
        = (rts.foldl PerformanceStatistics.updateRt s).locals := by
  induction rts using List.reverseRecOn with
  | nil => exact absurd rfl hne
  | append_singleton xs x ih =>
    intro s hs hpos
    have hx : 0 ≤ x := hpos x (by simp)
    have hxs : ∀ rt ∈ xs, 0 ≤ rt := fun rt hrt => hpos rt (List.mem_append_left _ hrt)
    by_cases hnil : xs = []
    · subst hnil
      exact mergeStats_step_one s x hs hx
    · have hfresh : PerformanceStatistics.new.good := Or.inl ⟨rfl, rfl⟩
      have ht := foldl_updateRt_started xs hnil PerformanceStatistics.new hfresh hxs
      have hstep := mergeStats_step_updateRt s (stats_of xs) _ x hs ht (ih hnil s hs hxs)
      simpa [stats_of, List.foldl_append] using hstep

theorem mergeStats_foldl (lists : List (List ℚ)) :
    ∀ s : PerformanceStatistics, s.good →
      (∀ l ∈ lists, l ≠ []) → (∀ l ∈ lists, ∀ rt ∈ l, 0 ≤ rt) →
      (lists.map stats_of).foldl mergeStats_step s.locals
        = (lists.flatten.foldl PerformanceStatistics.updateRt s).locals := by
  induction lists with
  | nil => exact fun s _ _ _ => rfl
  | cons l ls ih =>
    intro s hs hne hpos
    have hl := hpos l (List.mem_cons_self _ _)
    simp only [List.map_cons, List.foldl_cons, List.flatten_cons, List.foldl_append]
    rw [mergeStats_step_stats_of l (hne l (List.mem_cons_self _ _)) s hs hl]
    exact ih _ (foldl_updateRt_good l s hs hl)
      (fun l2 h2 => hne l2 (List.mem_cons_of_mem _ h2))
      (fun l2 h2 => hpos l2 (List.mem_cons_of_mem _ h2))

/-- When every object is built from a non-empty list of non-negative
response times, `mergeStats` over the objects is the single object given all
the response times of all the lists. -/
theorem mergeStats_of_nonempty (lists : List (List ℚ))
    (hne : ∀ l ∈ lists, l ≠ []) (hpos : ∀ l ∈ lists, ∀ rt ∈ l, 0 ≤ rt) :
    mergeStats (lists.map stats_of) = stats_of lists.flatten := by
  have h := mergeStats_foldl lists PerformanceStatistics.new (Or.inl ⟨rfl, rfl⟩) hne hpos
  have h0 : PerformanceStatistics.new.locals = (0, -1, -1, 0) := rfl
  rw [h0] at h
  simp only [mergeStats, h]
  rfl

end Walb
